import Mathlib

set_option maxHeartbeats 1000000
set_option maxRecDepth 8000

/-!
Verification of the jigs RV32IM translator core.

This file gives a shallow embedding, in Lean 4, of the parts of the
source that the specification's claims are about:

* `src/instruction.rs` — the `Instruction` sum type, `decode`, `encode`
  and `encode_r_type` (machine integers are modelled as `Nat` with the
  source's masks and shifts; the `u32 as i32` casts become `i32ofU32`);
* `src/memory.rs` — `PageStore` and `Memory` with `allocate_page`,
  `read`, `write` and `reset` (raw arrays become total functions
  `Nat → Nat`; the store sits inside the `Memory` record, modelling the
  `page_store` pointer in the single-Memory scenarios the claims need);
* `src/instance.rs` / `src/module.rs` — the attach/detach/drop
  bookkeeping of `Instance` against one `Module`;
* `src/compiler.rs` / `src/module.rs` — `Compiler::compile` and
  `Module::set_code` / `Module::code`.

Definitions are translated from the source; theorems at the end settle
the specification's claims C1–C10.
-/

/-! ### Instruction model (src/instruction.rs) -/

/-- Result of `u32 as i32`: a 32-bit unsigned value reinterpreted as a
signed 32-bit integer. -/
def i32ofU32 (x : Nat) : Int :=
  if x < 2 ^ 31 then (x : Int) else (x : Int) - 2 ^ 32

/-- Error type for instruction encoding failures (`EncodeError` in
src/instruction.rs; its only variant is `NotImplemented`). -/
inductive EncodeError where
  | NotImplemented (name : String)
  deriving DecidableEq, Repr

instance : DecidableEq (Except EncodeError Nat) := fun x y =>
  match x, y with
  | .ok a, .ok b => if h : a = b then isTrue (by rw [h]) else isFalse (by simp [h])
  | .error a, .error b => if h : a = b then isTrue (by rw [h]) else isFalse (by simp [h])
  | .ok _, .error _ => isFalse (by simp)
  | .error _, .ok _ => isFalse (by simp)

-- Masks for extracting instruction fields (constants of src/instruction.rs)
def OPCODE_MASK : Nat := 0x7F
def RD_MASK : Nat := 0xF80
def RD_SHIFT : Nat := 7
def FUNCT3_MASK : Nat := 0x7000
def FUNCT3_SHIFT : Nat := 12
def RS1_MASK : Nat := 0xF8000
def RS1_SHIFT : Nat := 15
def RS2_MASK : Nat := 0x1F00000
def RS2_SHIFT : Nat := 20
def FUNCT7_MASK : Nat := 0xFE000000
def FUNCT7_SHIFT : Nat := 25
def IMM_I_MASK : Nat := 0xFFF00000
def IMM_I_SHIFT : Nat := 20
def IMM_S_11_5_MASK : Nat := 0xFE000000
def IMM_S_11_5_SHIFT : Nat := 25
def IMM_S_4_0_MASK : Nat := 0xF80
def IMM_S_4_0_SHIFT : Nat := 7
def IMM_B_12_MASK : Nat := 0x80000000
def IMM_B_12_SHIFT : Nat := 31
def IMM_B_11_MASK : Nat := 0x80
def IMM_B_11_SHIFT : Nat := 7
def IMM_B_10_5_MASK : Nat := 0x7E000000
def IMM_B_10_5_SHIFT : Nat := 25
def IMM_B_4_1_MASK : Nat := 0xF00
def IMM_B_4_1_SHIFT : Nat := 8
def IMM_J_20_MASK : Nat := 0x80000000
def IMM_J_20_SHIFT : Nat := 31
def IMM_J_19_12_MASK : Nat := 0xFF000
def IMM_J_19_12_SHIFT : Nat := 12
def IMM_J_11_MASK : Nat := 0x100000
def IMM_J_11_SHIFT : Nat := 20
def IMM_J_10_1_MASK : Nat := 0x7FE00000
def IMM_J_10_1_SHIFT : Nat := 21
def IMM_U_MASK : Nat := 0xFFFFF000
def IMM_U_SHIFT : Nat := 12

set_option maxHeartbeats 3200000 in
/-- RISC-V instruction representation for 32-bit IM (the `Instruction`
enum of src/instruction.rs).  Register fields are `u8` in the source and
become `Nat` here; the signed immediates become `Int`. -/
inductive Instruction where
  | Add (rd rs1 rs2 : Nat)
  | Sub (rd rs1 rs2 : Nat)
  | Sll (rd rs1 rs2 : Nat)
  | Xor (rd rs1 rs2 : Nat)
  | Or (rd rs1 rs2 : Nat)
  | Srl (rd rs1 rs2 : Nat)
  | Sra (rd rs1 rs2 : Nat)
  | Slt (rd rs1 rs2 : Nat)
  | Sltu (rd rs1 rs2 : Nat)
  | And (rd rs1 rs2 : Nat)
  | Mul (rd rs1 rs2 : Nat)
  | Mulh (rd rs1 rs2 : Nat)
  | Mulhsu (rd rs1 rs2 : Nat)
  | Mulhu (rd rs1 rs2 : Nat)
  | Div (rd rs1 rs2 : Nat)
  | Divu (rd rs1 rs2 : Nat)
  | Rem (rd rs1 rs2 : Nat)
  | Remu (rd rs1 rs2 : Nat)
  | Addi (rd rs1 : Nat) (imm : Int)
  | Slti (rd rs1 : Nat) (imm : Int)
  | Sltiu (rd rs1 : Nat) (imm : Int)
  | Xori (rd rs1 : Nat) (imm : Int)
  | Ori (rd rs1 : Nat) (imm : Int)
  | Andi (rd rs1 : Nat) (imm : Int)
  | Slli (rd rs1 shamt : Nat)
  | Srli (rd rs1 shamt : Nat)
  | Srai (rd rs1 shamt : Nat)
  | Lb (rd rs1 : Nat) (imm : Int)
  | Lh (rd rs1 : Nat) (imm : Int)
  | Lw (rd rs1 : Nat) (imm : Int)
  | Lbu (rd rs1 : Nat) (imm : Int)
  | Lhu (rd rs1 : Nat) (imm : Int)
  | Sb (rs1 rs2 : Nat) (imm : Int)
  | Sh (rs1 rs2 : Nat) (imm : Int)
  | Sw (rs1 rs2 : Nat) (imm : Int)
  | Beq (rs1 rs2 : Nat) (imm : Int)
  | Bne (rs1 rs2 : Nat) (imm : Int)
  | Blt (rs1 rs2 : Nat) (imm : Int)
  | Bge (rs1 rs2 : Nat) (imm : Int)
  | Bltu (rs1 rs2 : Nat) (imm : Int)
  | Bgeu (rs1 rs2 : Nat) (imm : Int)
  | Jal (rd : Nat) (imm : Int)
  | Jalr (rd rs1 : Nat) (imm : Int)
  | Lui (rd : Nat) (imm : Nat)
  | Auipc (rd : Nat) (imm : Nat)
  | Ecall
  | Ebreak
  | Unsupported (word : Nat)
  deriving DecidableEq, Repr

/-- Sign extension of the 12-bit I/S immediate exactly as the source
writes it: `if imm_raw & 0x800 != 0 { (imm_raw | 0xFFFFF000) as i32 }
else { imm_raw as i32 }`. -/
def signExtend12 (imm_raw : Nat) : Int :=
  if imm_raw &&& 0x800 ≠ 0 then i32ofU32 (imm_raw ||| 0xFFFFF000) else i32ofU32 imm_raw

/-- Sign extension of the 13-bit B-type immediate exactly as the source
writes it (sign bit 0x1000, fill 0xFFFFE000). -/
def signExtend13 (imm_raw : Nat) : Int :=
  if imm_raw &&& 0x1000 ≠ 0 then i32ofU32 (imm_raw ||| 0xFFFFE000) else i32ofU32 imm_raw

/-- Sign extension of the 21-bit J-type immediate exactly as the source
writes it (sign bit 0x100000, fill 0xFFE00000). -/
def signExtend21 (imm_raw : Nat) : Int :=
  if imm_raw &&& 0x100000 ≠ 0 then i32ofU32 (imm_raw ||| 0xFFE00000) else i32ofU32 imm_raw

/-- R-type arm of the decoder (opcode 0x33). -/
def Instruction.decode_r (word : Nat) : Instruction :=
  let funct3 := ((word &&& FUNCT3_MASK) >>> FUNCT3_SHIFT) &&& 0x7
  let funct7 := (word &&& FUNCT7_MASK) >>> FUNCT7_SHIFT
  let rd := (word &&& RD_MASK) >>> RD_SHIFT
  let rs1 := (word &&& RS1_MASK) >>> RS1_SHIFT
  let rs2 := (word &&& RS2_MASK) >>> RS2_SHIFT
  if funct3 = 0x0 ∧ funct7 = 0x00 then .Add rd rs1 rs2
  else if funct3 = 0x0 ∧ funct7 = 0x20 then .Sub rd rs1 rs2
  else if funct3 = 0x1 ∧ funct7 = 0x00 then .Sll rd rs1 rs2
  else if funct3 = 0x5 ∧ funct7 = 0x00 then .Srl rd rs1 rs2
  else if funct3 = 0x5 ∧ funct7 = 0x20 then .Sra rd rs1 rs2
  else if funct3 = 0x2 ∧ funct7 = 0x00 then .Slt rd rs1 rs2
  else if funct3 = 0x3 ∧ funct7 = 0x00 then .Sltu rd rs1 rs2
  else if funct3 = 0x4 ∧ funct7 = 0x00 then .Xor rd rs1 rs2
  else if funct3 = 0x6 ∧ funct7 = 0x00 then .Or rd rs1 rs2
  else if funct3 = 0x7 ∧ funct7 = 0x00 then .And rd rs1 rs2
  else if funct3 = 0x0 ∧ funct7 = 0x01 then .Mul rd rs1 rs2
  else if funct3 = 0x1 ∧ funct7 = 0x01 then .Mulh rd rs1 rs2
  else if funct3 = 0x2 ∧ funct7 = 0x01 then .Mulhsu rd rs1 rs2
  else if funct3 = 0x3 ∧ funct7 = 0x01 then .Mulhu rd rs1 rs2
  else if funct3 = 0x4 ∧ funct7 = 0x01 then .Div rd rs1 rs2
  else if funct3 = 0x5 ∧ funct7 = 0x01 then .Divu rd rs1 rs2
  else if funct3 = 0x6 ∧ funct7 = 0x01 then .Rem rd rs1 rs2
  else if funct3 = 0x7 ∧ funct7 = 0x01 then .Remu rd rs1 rs2
  else .Unsupported word

/-- I-type immediate arm of the decoder (opcode 0x13). -/
def Instruction.decode_i (word : Nat) : Instruction :=
  let funct3 := ((word &&& FUNCT3_MASK) >>> FUNCT3_SHIFT) &&& 0x7
  let rd := (word &&& RD_MASK) >>> RD_SHIFT
  let rs1 := (word &&& RS1_MASK) >>> RS1_SHIFT
  let imm_raw := (word &&& IMM_I_MASK) >>> IMM_I_SHIFT
  let imm := signExtend12 imm_raw
  if funct3 = 0x0 then .Addi rd rs1 imm
  else if funct3 = 0x1 then
    -- SLLI: shift amount in lower 5 bits, upper 7 bits must be 0x00
    let shamt := imm_raw &&& 0x1F
    let upper_bits := (imm_raw >>> 5) &&& 0x7F
    if upper_bits = 0x00 then .Slli rd rs1 shamt else .Unsupported word
  else if funct3 = 0x2 then .Slti rd rs1 imm
  else if funct3 = 0x3 then .Sltiu rd rs1 imm
  else if funct3 = 0x4 then .Xori rd rs1 imm
  else if funct3 = 0x5 then
    -- SRLI/SRAI: upper 7 bits 0x00 for SRLI, 0x20 for SRAI
    let shamt := imm_raw &&& 0x1F
    let upper_bits := (imm_raw >>> 5) &&& 0x7F
    if upper_bits = 0x00 then .Srli rd rs1 shamt
    else if upper_bits = 0x20 then .Srai rd rs1 shamt
    else .Unsupported word
  else if funct3 = 0x6 then .Ori rd rs1 imm
  else if funct3 = 0x7 then .Andi rd rs1 imm
  else .Unsupported word  -- source: unreachable!(), funct3 is masked to 3 bits

/-- Load arm of the decoder (opcode 0x03). -/
def Instruction.decode_load (word : Nat) : Instruction :=
  let funct3 := ((word &&& FUNCT3_MASK) >>> FUNCT3_SHIFT) &&& 0x7
  let rd := (word &&& RD_MASK) >>> RD_SHIFT
  let rs1 := (word &&& RS1_MASK) >>> RS1_SHIFT
  let imm := signExtend12 ((word &&& IMM_I_MASK) >>> IMM_I_SHIFT)
  if funct3 = 0x0 then .Lb rd rs1 imm
  else if funct3 = 0x1 then .Lh rd rs1 imm
  else if funct3 = 0x2 then .Lw rd rs1 imm
  else if funct3 = 0x4 then .Lbu rd rs1 imm
  else if funct3 = 0x5 then .Lhu rd rs1 imm
  else .Unsupported word

/-- Store arm of the decoder (opcode 0x23); the S-type immediate is
split across two fields. -/
def Instruction.decode_s (word : Nat) : Instruction :=
  let funct3 := ((word &&& FUNCT3_MASK) >>> FUNCT3_SHIFT) &&& 0x7
  let rs1 := (word &&& RS1_MASK) >>> RS1_SHIFT
  let rs2 := (word &&& RS2_MASK) >>> RS2_SHIFT
  let imm_11_5 := (word &&& IMM_S_11_5_MASK) >>> IMM_S_11_5_SHIFT
  let imm_4_0 := (word &&& IMM_S_4_0_MASK) >>> IMM_S_4_0_SHIFT
  let imm := signExtend12 ((imm_11_5 <<< 5) ||| imm_4_0)
  if funct3 = 0x0 then .Sb rs1 rs2 imm
  else if funct3 = 0x1 then .Sh rs1 rs2 imm
  else if funct3 = 0x2 then .Sw rs1 rs2 imm
  else .Unsupported word

/-- Branch arm of the decoder (opcode 0x63); the scrambled B-type
immediate is reconstructed then sign-extended from 13 bits. -/
def Instruction.decode_b (word : Nat) : Instruction :=
  let funct3 := ((word &&& FUNCT3_MASK) >>> FUNCT3_SHIFT) &&& 0x7
  let rs1 := (word &&& RS1_MASK) >>> RS1_SHIFT
  let rs2 := (word &&& RS2_MASK) >>> RS2_SHIFT
  let bit_12 := (word &&& IMM_B_12_MASK) >>> IMM_B_12_SHIFT
  let bit_11 := (word &&& IMM_B_11_MASK) >>> IMM_B_11_SHIFT
  let bits_10_5 := (word &&& IMM_B_10_5_MASK) >>> IMM_B_10_5_SHIFT
  let bits_4_1 := (word &&& IMM_B_4_1_MASK) >>> IMM_B_4_1_SHIFT
  let imm_raw := (bit_12 <<< 12) ||| (bit_11 <<< 11) ||| (bits_10_5 <<< 5) ||| (bits_4_1 <<< 1)
  let imm := signExtend13 imm_raw
  if funct3 = 0x0 then .Beq rs1 rs2 imm
  else if funct3 = 0x1 then .Bne rs1 rs2 imm
  else if funct3 = 0x4 then .Blt rs1 rs2 imm
  else if funct3 = 0x5 then .Bge rs1 rs2 imm
  else if funct3 = 0x6 then .Bltu rs1 rs2 imm
  else if funct3 = 0x7 then .Bgeu rs1 rs2 imm
  else .Unsupported word

/-- JAL arm of the decoder (opcode 0x6F); the scrambled J-type
immediate is reconstructed then sign-extended from 21 bits. -/
def Instruction.decode_jal (word : Nat) : Instruction :=
  let rd := (word &&& RD_MASK) >>> RD_SHIFT
  let bit_20 := (word &&& IMM_J_20_MASK) >>> IMM_J_20_SHIFT
  let bits_19_12 := (word &&& IMM_J_19_12_MASK) >>> IMM_J_19_12_SHIFT
  let bit_11 := (word &&& IMM_J_11_MASK) >>> IMM_J_11_SHIFT
  let bits_10_1 := (word &&& IMM_J_10_1_MASK) >>> IMM_J_10_1_SHIFT
  let imm_raw := (bit_20 <<< 20) ||| (bits_19_12 <<< 12) ||| (bit_11 <<< 11) ||| (bits_10_1 <<< 1)
  let imm := signExtend21 imm_raw
  .Jal rd imm

/-- JALR arm of the decoder (opcode 0x67); only funct3 = 0 is valid. -/
def Instruction.decode_jalr (word : Nat) : Instruction :=
  let funct3 := ((word &&& FUNCT3_MASK) >>> FUNCT3_SHIFT) &&& 0x7
  let rd := (word &&& RD_MASK) >>> RD_SHIFT
  let rs1 := (word &&& RS1_MASK) >>> RS1_SHIFT
  let imm := signExtend12 ((word &&& IMM_I_MASK) >>> IMM_I_SHIFT)
  if funct3 = 0x0 then .Jalr rd rs1 imm else .Unsupported word

/-- LUI arm of the decoder (opcode 0x37). -/
def Instruction.decode_lui (word : Nat) : Instruction :=
  let rd := (word &&& RD_MASK) >>> RD_SHIFT
  let imm := (word &&& IMM_U_MASK) >>> IMM_U_SHIFT
  .Lui rd imm

/-- AUIPC arm of the decoder (opcode 0x17). -/
def Instruction.decode_auipc (word : Nat) : Instruction :=
  let rd := (word &&& RD_MASK) >>> RD_SHIFT
  let imm := (word &&& IMM_U_MASK) >>> IMM_U_SHIFT
  .Auipc rd imm

/-- System arm of the decoder (opcode 0x73): ECALL/EBREAK require
funct3 = 0 and rd = rs1 = 0. -/
def Instruction.decode_system (word : Nat) : Instruction :=
  let funct3 := ((word &&& FUNCT3_MASK) >>> FUNCT3_SHIFT) &&& 0x7
  let rd := (word &&& RD_MASK) >>> RD_SHIFT
  let rs1 := (word &&& RS1_MASK) >>> RS1_SHIFT
  let imm := (word &&& IMM_I_MASK) >>> IMM_I_SHIFT
  if funct3 = 0 ∧ rd = 0 ∧ rs1 = 0 then
    if imm = 0x000 then .Ecall
    else if imm = 0x001 then .Ebreak
    else .Unsupported word
  else .Unsupported word

/-- Decode a 32-bit instruction word (`Instruction::decode`).  The Rust
`match` over the opcode is rendered as a chain of equality tests, one
helper per arm. -/
def Instruction.decode (word : Nat) : Instruction :=
  let opcode := word &&& OPCODE_MASK
  if opcode = 0x33 then Instruction.decode_r word
  else if opcode = 0x13 then Instruction.decode_i word
  else if opcode = 0x03 then Instruction.decode_load word
  else if opcode = 0x23 then Instruction.decode_s word
  else if opcode = 0x63 then Instruction.decode_b word
  else if opcode = 0x6F then Instruction.decode_jal word
  else if opcode = 0x67 then Instruction.decode_jalr word
  else if opcode = 0x37 then Instruction.decode_lui word
  else if opcode = 0x17 then Instruction.decode_auipc word
  else if opcode = 0x73 then Instruction.decode_system word
  else .Unsupported word

/-- Encode an R-type instruction (`encode_r_type` in src/instruction.rs). -/
def encode_r_type (opcode rd funct3 rs1 rs2 funct7 : Nat) : Nat :=
  opcode ||| (rd <<< RD_SHIFT) ||| (funct3 <<< FUNCT3_SHIFT) |||
    (rs1 <<< RS1_SHIFT) ||| (rs2 <<< RS2_SHIFT) ||| (funct7 <<< FUNCT7_SHIFT)

/-- Encode an instruction into a 32-bit word (`Instruction::encode`).
Only `Add` is implemented; every other variant returns
`EncodeError::NotImplemented` with the variant's name. -/
def Instruction.encode : Instruction → Except EncodeError Nat
  | .Add rd rs1 rs2 => .ok (encode_r_type 0x33 rd 0x0 rs1 rs2 0x00)
  | .Sub _ _ _ => .error (.NotImplemented "Sub")
  | .Sll _ _ _ => .error (.NotImplemented "Sll")
  | .Xor _ _ _ => .error (.NotImplemented "Xor")
  | .Or _ _ _ => .error (.NotImplemented "Or")
  | .Srl _ _ _ => .error (.NotImplemented "Srl")
  | .Sra _ _ _ => .error (.NotImplemented "Sra")
  | .Slt _ _ _ => .error (.NotImplemented "Slt")
  | .Sltu _ _ _ => .error (.NotImplemented "Sltu")
  | .And _ _ _ => .error (.NotImplemented "And")
  | .Addi _ _ _ => .error (.NotImplemented "Addi")
  | .Andi _ _ _ => .error (.NotImplemented "Andi")
  | .Ori _ _ _ => .error (.NotImplemented "Ori")
  | .Xori _ _ _ => .error (.NotImplemented "Xori")
  | .Slti _ _ _ => .error (.NotImplemented "Slti")
  | .Sltiu _ _ _ => .error (.NotImplemented "Sltiu")
  | .Slli _ _ _ => .error (.NotImplemented "Slli")
  | .Srli _ _ _ => .error (.NotImplemented "Srli")
  | .Srai _ _ _ => .error (.NotImplemented "Srai")
  | .Lb _ _ _ => .error (.NotImplemented "Lb")
  | .Lh _ _ _ => .error (.NotImplemented "Lh")
  | .Lw _ _ _ => .error (.NotImplemented "Lw")
  | .Lbu _ _ _ => .error (.NotImplemented "Lbu")
  | .Lhu _ _ _ => .error (.NotImplemented "Lhu")
  | .Sb _ _ _ => .error (.NotImplemented "Sb")
  | .Sh _ _ _ => .error (.NotImplemented "Sh")
  | .Sw _ _ _ => .error (.NotImplemented "Sw")
  | .Beq _ _ _ => .error (.NotImplemented "Beq")
  | .Bne _ _ _ => .error (.NotImplemented "Bne")
  | .Blt _ _ _ => .error (.NotImplemented "Blt")
  | .Bge _ _ _ => .error (.NotImplemented "Bge")
  | .Bltu _ _ _ => .error (.NotImplemented "Bltu")
  | .Bgeu _ _ _ => .error (.NotImplemented "Bgeu")
  | .Mul _ _ _ => .error (.NotImplemented "Mul")
  | .Mulh _ _ _ => .error (.NotImplemented "Mulh")
  | .Mulhsu _ _ _ => .error (.NotImplemented "Mulhsu")
  | .Mulhu _ _ _ => .error (.NotImplemented "Mulhu")
  | .Div _ _ _ => .error (.NotImplemented "Div")
  | .Divu _ _ _ => .error (.NotImplemented "Divu")
  | .Rem _ _ _ => .error (.NotImplemented "Rem")
  | .Remu _ _ _ => .error (.NotImplemented "Remu")
  | .Jal _ _ => .error (.NotImplemented "Jal")
  | .Jalr _ _ _ => .error (.NotImplemented "Jalr")
  | .Lui _ _ => .error (.NotImplemented "Lui")
  | .Auipc _ _ => .error (.NotImplemented "Auipc")
  | .Ecall => .error (.NotImplemented "Ecall")
  | .Ebreak => .error (.NotImplemented "Ebreak")
  | .Unsupported _ => .error (.NotImplemented "Unsupported")

/-! ### Sparse paged memory (src/memory.rs)

Raw arrays (`*mut u8`, `*mut u16`) become total functions `Nat → Nat`;
only indices the source actually reads are relevant.  A `Memory` holds
its `PageStore` by value, modelling the `page_store` pointer in the
single-Memory scenarios the claims quantify over (the source's
`instance_count` guard and `Drop` glue are lifetime bookkeeping with no
bearing on these claims). -/

/-- Success return code for memory operations. -/
def MEM_SUCCESS : Nat := 0

/-- Error: no more L2 tables available. -/
def MEM_ERR_NO_L2_TABLES : Nat := 1

/-- Error: instance page limit reached. -/
def MEM_ERR_PAGE_LIMIT : Nat := 2

/-- Error: PageStore has no available pages. -/
def MEM_ERR_NO_PAGES_AVAILABLE : Nat := 3

/-- Size of a memory page in bytes (16KB). -/
def PAGE_SIZE : Nat := 1 <<< 14

/-- Mask for extracting page offset from address. -/
def PAGE_OFFSET_MASK : Nat := PAGE_SIZE - 1

/-- Bit position where the L1 index starts. -/
def L1_INDEX_SHIFT : Nat := 22

/-- Bit position where the L2 index starts. -/
def L2_INDEX_SHIFT : Nat := 14

/-- Mask for extracting the L1 index from the shifted address. -/
def L1_INDEX_MASK : Nat := 1023

/-- Mask for extracting the L2 index from the shifted address. -/
def L2_INDEX_MASK : Nat := 255

/-- Number of entries in each L2 table. -/
def L2_TABLE_SIZE : Nat := 256

/-- Special value indicating an unmapped L2 table in L1 entries. -/
def UNMAPPED_L2_TABLE : Nat := 0xFF

/-- Special value indicating an unmapped page in L2 entries. -/
def UNMAPPED_PAGE : Nat := 0xFFFF

/-- Maximum number of pages (65535, since 0xFFFF is the sentinel). -/
def MAX_PAGES : Nat := 65535

/-- Maximum number of L2 tables (255, since 0xFF is the sentinel). -/
def MAX_L2_TABLES : Nat := 255

/-- The 32-bit address space size; addresses wrap at this bound. -/
def ADDR_SPACE : Nat := 4294967296

/-- Global page store managing memory pages (`PageStore` in
src/memory.rs).  `page_memory` is the byte at each physical offset;
`available_pages` the pool array of page indices, of which the first
`num_available_pages` entries are free. -/
structure PageStore where
  page_memory : Nat → Nat
  available_pages : Nat → Nat
  available_pages_capacity : Nat
  num_available_pages : Nat
  deriving Inhabited

/-- `PageStore::new(total_pages)`: zeroed page memory and the free list
initialised to `[0, 1, …, total_pages-1]`.  The source asserts
`total_pages ≤ MAX_PAGES`. -/
def PageStore.new (total_pages : Nat) : PageStore :=
  { page_memory := fun _ => 0
    available_pages := fun i => i
    available_pages_capacity := total_pages
    num_available_pages := total_pages }

/-- Memory system for a single VM instance with a two-layer page table
(`Memory` in src/memory.rs).  `l1_table` has 1024 one-byte entries
(0xFF = unmapped); `l2_tables` is the flat array of `max_l2_tables`
L2 tables of 256 u16 entries each, entry `t*256+e` belonging to table
`t`; `allocated_indices` lists the physical pages owned, of length
`num_pages`. -/
structure Memory where
  store : PageStore
  l1_table : Nat → Nat
  l2_tables : Nat → Nat
  allocated_indices : Nat → Nat
  num_pages : Nat
  max_pages : Nat
  num_l2_tables : Nat
  max_l2_tables : Nat
  deriving Inhabited

/-- Array store: the Rust `arr[i] = v`. -/
def setFn (f : Nat → Nat) (i v : Nat) : Nat → Nat :=
  fun n => if n = i then v else f n

/-- `Memory::new(page_store, max_pages, max_l2_tables)`: empty tables,
all L2 entries `UNMAPPED_PAGE`, all L1 entries `UNMAPPED_L2_TABLE`.
The source asserts `max_pages ≤ MAX_PAGES`,
`max_pages ≤ page_store.num_available_pages` and
`max_l2_tables ≤ MAX_L2_TABLES`. -/
def Memory.new (page_store : PageStore) (max_pages max_l2_tables : Nat) : Memory :=
  { store := page_store
    l1_table := fun _ => UNMAPPED_L2_TABLE
    l2_tables := fun _ => UNMAPPED_PAGE
    allocated_indices := fun _ => 0
    num_pages := 0
    max_pages := max_pages
    num_l2_tables := 0
    max_l2_tables := max_l2_tables }

/-- Continuation of `allocate_page` after the L2 table for the address
is known to exist: look the page up in the L2 table, and if unmapped
pop a fresh page from the store (the straight-line tail of
`Memory::allocate_page`). -/
def Memory.allocate_page_in_table (s : Memory) (l1_idx l2_idx : Nat) : Nat × Memory :=
  let l2_table_idx := s.l1_table l1_idx
  let l2_entry_offset := l2_table_idx * L2_TABLE_SIZE + l2_idx
  if s.l2_tables l2_entry_offset ≠ UNMAPPED_PAGE then
    (MEM_SUCCESS, s)  -- page already mapped
  else if s.num_pages ≥ s.max_pages then
    (MEM_ERR_PAGE_LIMIT, s)
  else if s.store.num_available_pages = 0 then
    (MEM_ERR_NO_PAGES_AVAILABLE, s)
  else
    let page_idx := s.store.available_pages (s.store.num_available_pages - 1)
    (MEM_SUCCESS,
      { s with
        store := { s.store with num_available_pages := s.store.num_available_pages - 1 }
        allocated_indices := setFn s.allocated_indices s.num_pages page_idx
        num_pages := s.num_pages + 1
        l2_tables := setFn s.l2_tables l2_entry_offset page_idx })

/-- `Memory::allocate_page(address)`: ensure the 16 KB page containing
`address` is mapped, assigning a fresh L2 table first when the L1 slot
has none.  The fresh table index is `num_l2_tables as u8`, hence the
`% 256`. -/
def Memory.allocate_page (s : Memory) (address : Nat) : Nat × Memory :=
  let l1_idx := (address >>> L1_INDEX_SHIFT) &&& L1_INDEX_MASK
  let l2_idx := (address >>> L2_INDEX_SHIFT) &&& L2_INDEX_MASK
  if s.l1_table l1_idx = UNMAPPED_L2_TABLE then
    if s.num_l2_tables ≥ s.max_l2_tables then
      (MEM_ERR_NO_L2_TABLES, s)
    else
      let new_l2_idx := s.num_l2_tables % 256
      let s1 := { s with
        l1_table := setFn s.l1_table l1_idx new_l2_idx
        num_l2_tables := s.num_l2_tables + 1 }
      s1.allocate_page_in_table l1_idx l2_idx
  else
    s.allocate_page_in_table l1_idx l2_idx

/-- The byte observable at guest address `a`: walk L1 then L2; unmapped
reads as 0 (spec-level view of the `Memory::read` chunk bodies). -/
def Memory.byteAt (s : Memory) (a : Nat) : Nat :=
  let t := s.l1_table ((a >>> L1_INDEX_SHIFT) &&& L1_INDEX_MASK)
  if t = UNMAPPED_L2_TABLE then 0
  else
    let p := s.l2_tables (t * L2_TABLE_SIZE + ((a >>> L2_INDEX_SHIFT) &&& L2_INDEX_MASK))
    if p = UNMAPPED_PAGE then 0
    else s.store.page_memory (p * PAGE_SIZE + (a &&& PAGE_OFFSET_MASK))

/-- The chunked loop of `Memory::read`.  `fuel` bounds the number of
loop iterations; since every chunk transfers at least one byte, a fuel
of `len` is always enough, so `Memory.read` below runs the loop to
completion exactly as the source's `while` does. -/
def Memory.readLoop (s : Memory) : Nat → Nat → Nat → List Nat
  | 0, _, _ => []
  | fuel + 1, addr, len =>
    if len = 0 then []
    else
      let page_offset := addr &&& PAGE_OFFSET_MASK
      let bytes_in_page := min (PAGE_SIZE - page_offset) len
      let l1_idx := (addr >>> L1_INDEX_SHIFT) &&& L1_INDEX_MASK
      let l2_idx := (addr >>> L2_INDEX_SHIFT) &&& L2_INDEX_MASK
      let l2_table_idx := s.l1_table l1_idx
      let chunk :=
        if l2_table_idx = UNMAPPED_L2_TABLE then
          List.replicate bytes_in_page 0  -- no L2 table: fill with zeros
        else
          let page_idx := s.l2_tables (l2_table_idx * L2_TABLE_SIZE + l2_idx)
          if page_idx = UNMAPPED_PAGE then
            List.replicate bytes_in_page 0  -- page not allocated: fill with zeros
          else
            (List.range bytes_in_page).map fun i =>
              s.store.page_memory (page_idx * PAGE_SIZE + page_offset + i)
      chunk ++ s.readLoop fuel ((addr + bytes_in_page) % ADDR_SPACE) (len - bytes_in_page)

/-- `Memory::read(address, buffer)`: returns the `len` bytes read
starting at guest address `address`, wrapping addresses at 2^32.  Never
mutates the Memory (the source takes `&self`) and never fails. -/
def Memory.read (s : Memory) (address len : Nat) : List Nat :=
  s.readLoop len address len

/-- The chunked loop of `Memory::write`: per chunk, first
`allocate_page(addr & !PAGE_OFFSET_MASK)`, returning its status
immediately on failure (with the state as mutated so far), then copy
the chunk's bytes into the mapped page.  As in `readLoop`, `fuel`
bounds the iteration count and `buffer.length` is always enough. -/
def Memory.writeLoop : Nat → Memory → Nat → List Nat → Nat × Memory
  | 0, s, _, _ => (MEM_SUCCESS, s)
  | fuel + 1, s, addr, buffer =>
    if buffer.length = 0 then (MEM_SUCCESS, s)
    else
      let page_offset := addr &&& PAGE_OFFSET_MASK
      let bytes_in_page := min (PAGE_SIZE - page_offset) buffer.length
      -- Ensure page is allocated
      let page_base := addr &&& 0xFFFFC000  -- addr & !PAGE_OFFSET_MASK on u32
      let r := s.allocate_page page_base
      if r.1 ≠ MEM_SUCCESS then r
      else
        let s1 := r.2
        let l1_idx := (addr >>> L1_INDEX_SHIFT) &&& L1_INDEX_MASK
        let l2_idx := (addr >>> L2_INDEX_SHIFT) &&& L2_INDEX_MASK
        let l2_table_idx := s1.l1_table l1_idx
        let page_idx := s1.l2_tables (l2_table_idx * L2_TABLE_SIZE + l2_idx)
        -- Write the chunk's bytes to the page
        let base := page_idx * PAGE_SIZE + page_offset
        let s2 := { s1 with
          store := { s1.store with
            page_memory := fun n =>
              if base ≤ n ∧ n < base + bytes_in_page then buffer.getD (n - base) 0
              else s1.store.page_memory n } }
        Memory.writeLoop fuel s2 ((addr + bytes_in_page) % ADDR_SPACE)
          (buffer.drop bytes_in_page)

/-- `Memory::write(address, buffer)`: write the bytes of `buffer`
starting at `address`, allocating pages on demand; returns the status
code and the resulting state. -/
def Memory.write (s : Memory) (address : Nat) (buffer : List Nat) : Nat × Memory :=
  Memory.writeLoop buffer.length s address buffer

/-- `Memory::reset()`: if `num_pages == 0` return immediately (the
source's early return); otherwise zero every allocated page's bytes and
push it back on the store's free list, reset every L1 entry to
`UNMAPPED_L2_TABLE`, clear every populated L2 table entry to
`UNMAPPED_PAGE`, and zero both counters. -/
def Memory.reset (s : Memory) : Memory :=
  if s.num_pages = 0 then s
  else
    -- Return each page to the pool, zeroing its 16 KB of backing bytes
    let s1 := (List.range s.num_pages).foldl
      (fun acc i =>
        let page_idx := acc.allocated_indices i
        let offset := page_idx * PAGE_SIZE
        { acc with
          store := { acc.store with
            page_memory := fun n =>
              if offset ≤ n ∧ n < offset + PAGE_SIZE then 0 else acc.store.page_memory n
            available_pages :=
              setFn acc.store.available_pages acc.store.num_available_pages page_idx
            num_available_pages := acc.store.num_available_pages + 1 } }) s
    -- Clear all L1 table entries
    let s2 := { s1 with l1_table := fun _ => UNMAPPED_L2_TABLE }
    -- Clear all allocated L2 tables
    let s3 := { s2 with
      l2_tables := (List.range s.num_l2_tables).foldl
        (fun tbl t =>
          (List.range L2_TABLE_SIZE).foldl
            (fun tbl2 i => setFn tbl2 (t * L2_TABLE_SIZE + i) UNMAPPED_PAGE) tbl)
        s2.l2_tables }
    { s3 with num_l2_tables := 0, num_pages := 0 }

/-- State invariants of a reachable `Memory` (the invariant list of the
specification's §4.3, plus the construction-time bounds the source
asserts and the fact that pooled pages are zero-filled).  `Memory.new`
establishes it and `allocate_page`, `read` and `write` preserve it. -/
structure Memory.Inv (s : Memory) : Prop where
  maxL2_le : s.max_l2_tables ≤ MAX_L2_TABLES
  numL2_le : s.num_l2_tables ≤ s.max_l2_tables
  numPages_le : s.num_pages ≤ s.max_pages
  cap_le : s.store.available_pages_capacity ≤ MAX_PAGES
  l1_lt : ∀ i, s.l1_table i ≠ UNMAPPED_L2_TABLE → s.l1_table i < s.num_l2_tables
  l1_inj : ∀ i j, s.l1_table i ≠ UNMAPPED_L2_TABLE → s.l1_table j ≠ UNMAPPED_L2_TABLE →
    s.l1_table i = s.l1_table j → i = j
  fresh_clean : ∀ t e, s.num_l2_tables ≤ t → e < L2_TABLE_SIZE →
    s.l2_tables (t * L2_TABLE_SIZE + e) = UNMAPPED_PAGE
  mapped_lt : ∀ t e, t < s.num_l2_tables → e < L2_TABLE_SIZE →
    s.l2_tables (t * L2_TABLE_SIZE + e) ≠ UNMAPPED_PAGE →
    s.l2_tables (t * L2_TABLE_SIZE + e) < s.store.available_pages_capacity
  slot_inj : ∀ t e u f, t < s.num_l2_tables → e < L2_TABLE_SIZE →
    u < s.num_l2_tables → f < L2_TABLE_SIZE →
    s.l2_tables (t * L2_TABLE_SIZE + e) ≠ UNMAPPED_PAGE →
    s.l2_tables (t * L2_TABLE_SIZE + e) = s.l2_tables (u * L2_TABLE_SIZE + f) →
    t = u ∧ e = f
  avail_lt : ∀ i, i < s.store.num_available_pages →
    s.store.available_pages i < s.store.available_pages_capacity
  avail_inj : ∀ i j, i < s.store.num_available_pages → j < s.store.num_available_pages →
    s.store.available_pages i = s.store.available_pages j → i = j
  avail_not_mapped : ∀ i t e, i < s.store.num_available_pages → t < s.num_l2_tables →
    e < L2_TABLE_SIZE → s.l2_tables (t * L2_TABLE_SIZE + e) ≠ s.store.available_pages i
  avail_zero : ∀ i b, i < s.store.num_available_pages → b < PAGE_SIZE →
    s.store.page_memory (s.store.available_pages i * PAGE_SIZE + b) = 0

/-! ### Instance attachment bookkeeping (src/instance.rs, src/module.rs)

The claims about `instance_count` quantify over sequences of
`Instance::attach(M)` / `Instance::detach()` / `Instance` drops against
one `Module` M.  The system state is M's counter together with the
status of every instance created so far: `none` when the instance has
been dropped, `some b` when it is alive with `b` recording whether it
is attached to M. -/

/-- One operation of the attachment protocol, naming an instance by its
creation index. -/
inductive InstOp where
  | newInstance
  | attach (i : Nat)
  | detach (i : Nat)
  | drop (i : Nat)
  deriving DecidableEq, Repr

/-- State of one Module plus all Instances created so far. -/
structure InstSys where
  instance_count : Nat
  insts : List (Option Bool)
  deriving DecidableEq, Repr

/-- Initial state: a fresh `Module` (`instance_count = 0`) and no
instances. -/
def InstSys.init : InstSys := { instance_count := 0, insts := [] }

/-- Step function.  `attach` follows `Instance::attach`: an instance
already attached first detaches (decrementing the counter), then the
counter is incremented and the instance marked attached.  `detach`
follows `Instance::detach`: only an attached instance decrements the
counter.  `drop` follows `impl Drop for Instance`: detach, then the
instance is gone.  Operations naming a dropped or never-created
instance have no real-program counterpart and leave the state
unchanged. -/
def InstSys.step (s : InstSys) : InstOp → InstSys
  | .newInstance => { s with insts := s.insts ++ [some false] }
  | .attach i =>
    match s.insts.getD i none with
    | some b =>
      { instance_count := (if b then s.instance_count - 1 else s.instance_count) + 1
        insts := s.insts.set i (some true) }
    | none => s
  | .detach i =>
    match s.insts.getD i none with
    | some true => { instance_count := s.instance_count - 1, insts := s.insts.set i (some false) }
    | some false => s
    | none => s
  | .drop i =>
    match s.insts.getD i none with
    | some true => { instance_count := s.instance_count - 1, insts := s.insts.set i none }
    | some false => { s with insts := s.insts.set i none }
    | none => s

/-- Run a sequence of operations from the initial state. -/
def InstSys.run (ops : List InstOp) : InstSys :=
  ops.foldl InstSys.step InstSys.init

/-- Number of instances currently attached to the module. -/
def InstSys.attachedCount (s : InstSys) : Nat :=
  s.insts.countP (fun o => o = some true)

/-! ### Compiler and Module code buffer (src/compiler.rs, src/module.rs) -/

/-- ARM64 RET instruction (`arm64::RET` in src/compiler.rs). -/
def ARM64_RET : Nat := 0xD65F03C0

/-- `u32::to_le_bytes`. -/
def u32ToLeBytes (w : Nat) : List Nat :=
  [w % 256, w / 256 % 256, w / 65536 % 256, w / 16777216 % 256]

/-- `Compiler::compile`: clears the internal buffer, pushes a single
RET instruction, and returns its little-endian bytes — regardless of
the input instruction sequence. -/
def Compiler.compile (_instructions : List Instruction) : List Nat :=
  ([ARM64_RET].map u32ToLeBytes).flatten

/-- ARM64 code buffer size multiplier (`ARM64_CODE_SIZE_MULTIPLIER`). -/
def ARM64_CODE_SIZE_MULTIPLIER : Nat := 4

/-- Errors during module compilation (`CompileError` in src/module.rs). -/
inductive CompileError where
  | InvalidCode
  | NotImplemented
  | AllocationFailed
  | InstancesAttached
  | CodeTooLarge
  deriving DecidableEq, Repr

/-- Compiled ARM64 code module (`Module` in src/module.rs; named
`Jigs.Module` here since Mathlib already has a `Module`).  The mmap'd
code buffer becomes a byte function; `code_size` is the length of the
emitted code. -/
structure Jigs.Module where
  instance_count : Nat
  code_buffer : Nat → Nat
  code_buffer_size : Nat
  code_size : Nat

/-- `Module::new(max_code_size)`: empty module with a zeroed buffer of
`max_code_size * ARM64_CODE_SIZE_MULTIPLIER` bytes (mmap'd anonymous
pages are zero-filled; the mmap-failure path is host nondeterminism
outside the model). -/
def Jigs.Module.new (max_code_size : Nat) : Jigs.Module :=
  { instance_count := 0
    code_buffer := fun _ => 0
    code_buffer_size := max_code_size * ARM64_CODE_SIZE_MULTIPLIER
    code_size := 0 }

/-- `code.chunks_exact(4)`: exact 4-byte chunks, remainder dropped. -/
def chunksExact4 : List Nat → List (List Nat)
  | a :: b :: c :: d :: rest => [a, b, c, d] :: chunksExact4 rest
  | _ => []

/-- `u32::from_le_bytes` on a 4-byte chunk. -/
def u32FromLeBytes (chunk : List Nat) : Nat :=
  chunk.getD 0 0 + chunk.getD 1 0 * 256 + chunk.getD 2 0 * 65536 + chunk.getD 3 0 * 16777216

/-- `Module::set_code(code)`: reject while instances are attached or
when `code.len() * 4` exceeds the buffer; otherwise decode the input in
4-byte little-endian chunks, compile, copy the compiled bytes into the
buffer and record `code_size`.  (The final `mprotect` W→X flip either
succeeds or fails at the host's whim; the model takes the success
path.) -/
def Jigs.Module.set_code (m : Jigs.Module) (code : List Nat) : Except CompileError Jigs.Module :=
  if m.instance_count ≠ 0 then .error .InstancesAttached
  else if code.length * ARM64_CODE_SIZE_MULTIPLIER > m.code_buffer_size then
    .error .CodeTooLarge
  else
    let instructions := (chunksExact4 code).map (fun chunk => Instruction.decode (u32FromLeBytes chunk))
    let arm64_code := Compiler.compile instructions
    .ok { m with
      code_size := arm64_code.length
      code_buffer := fun n => if n < arm64_code.length then arm64_code.getD n 0 else m.code_buffer n }

/-- `Module::code()`: the first `code_size` bytes of the buffer. -/
def Jigs.Module.code (m : Jigs.Module) : List Nat :=
  if m.code_size = 0 then [] else (List.range m.code_size).map m.code_buffer

/-! ### Remaining spec-level definitions used by the claims -/

/-- The register fields carried by an instruction (shift amounts and
immediates are not registers). -/
def Instruction.regFields : Instruction → List Nat
  | .Add rd rs1 rs2 | .Sub rd rs1 rs2 | .Sll rd rs1 rs2 | .Xor rd rs1 rs2
  | .Or rd rs1 rs2 | .Srl rd rs1 rs2 | .Sra rd rs1 rs2 | .Slt rd rs1 rs2
  | .Sltu rd rs1 rs2 | .And rd rs1 rs2 | .Mul rd rs1 rs2 | .Mulh rd rs1 rs2
  | .Mulhsu rd rs1 rs2 | .Mulhu rd rs1 rs2 | .Div rd rs1 rs2 | .Divu rd rs1 rs2
  | .Rem rd rs1 rs2 | .Remu rd rs1 rs2 => [rd, rs1, rs2]
  | .Addi rd rs1 _ | .Slti rd rs1 _ | .Sltiu rd rs1 _ | .Xori rd rs1 _
  | .Ori rd rs1 _ | .Andi rd rs1 _ | .Slli rd rs1 _ | .Srli rd rs1 _
  | .Srai rd rs1 _ | .Lb rd rs1 _ | .Lh rd rs1 _ | .Lw rd rs1 _
  | .Lbu rd rs1 _ | .Lhu rd rs1 _ | .Jalr rd rs1 _ => [rd, rs1]
  | .Sb rs1 rs2 _ | .Sh rs1 rs2 _ | .Sw rs1 rs2 _ | .Beq rs1 rs2 _
  | .Bne rs1 rs2 _ | .Blt rs1 rs2 _ | .Bge rs1 rs2 _ | .Bltu rs1 rs2 _
  | .Bgeu rs1 rs2 _ => [rs1, rs2]
  | .Jal rd _ | .Lui rd _ | .Auipc rd _ => [rd]
  | .Ecall | .Ebreak | .Unsupported _ => []

/-- The page containing address `a` is mapped in `s` (its L1 slot has an
L2 table whose entry for `a` is a page index). -/
def Memory.pageMapped (s : Memory) (a : Nat) : Prop :=
  s.l1_table ((a >>> L1_INDEX_SHIFT) &&& L1_INDEX_MASK) ≠ UNMAPPED_L2_TABLE ∧
  s.l2_tables (s.l1_table ((a >>> L1_INDEX_SHIFT) &&& L1_INDEX_MASK) * L2_TABLE_SIZE +
    ((a >>> L2_INDEX_SHIFT) &&& L2_INDEX_MASK)) ≠ UNMAPPED_PAGE

/-- `s` has the capacity `allocate_page(a)` needs: either the page is
already mapped, or an L2 table is present or assignable and both the
per-instance page budget and the store's pool have room. -/
def Memory.canAllocate (s : Memory) (a : Nat) : Prop :=
  s.pageMapped a ∨
    ((s.l1_table ((a >>> L1_INDEX_SHIFT) &&& L1_INDEX_MASK) ≠ UNMAPPED_L2_TABLE ∨
        s.num_l2_tables < s.max_l2_tables) ∧
      s.num_pages < s.max_pages ∧ 0 < s.store.num_available_pages)

/-! ### Bit-manipulation helper lemmas -/

lemma lor_shiftLeft_eq_add {a : Nat} (y k : Nat) (h : a < 2 ^ k) :
    a ||| y <<< k = a + y * 2 ^ k := by
  have hcomm : a + y * 2 ^ k = 2 ^ k * y + a := by ring
  apply Nat.eq_of_testBit_eq
  intro i
  rw [Nat.testBit_lor, Nat.testBit_shiftLeft, hcomm, Nat.testBit_mul_pow_two_add _ h]
  by_cases hik : i < k
  · have hnge : ¬ (i ≥ k) := by omega
    simp [hik, hnge]
  · have hge : i ≥ k := by omega
    have ha : a.testBit i = false :=
      Nat.testBit_lt_two_pow (lt_of_lt_of_le h (Nat.pow_le_pow_right (by norm_num) hge))
    simp [hik, hge, ha]

lemma shiftRight_land_distrib (x m k : Nat) : (x &&& m) >>> k = (x >>> k) &&& (m >>> k) := by
  apply Nat.eq_of_testBit_eq
  intro i
  simp [Nat.testBit_shiftRight, Nat.testBit_and, Nat.add_comm]

lemma extract_field (x k m : Nat) : (x &&& (2 ^ m - 1) <<< k) >>> k = x / 2 ^ k % 2 ^ m := by
  rw [shiftRight_land_distrib]
  have h1 : ((2 ^ m - 1) <<< k) >>> k = 2 ^ m - 1 := by
    rw [Nat.shiftLeft_eq, Nat.shiftRight_eq_div_pow,
      Nat.mul_div_cancel _ (Nat.pos_pow_of_pos k (by norm_num))]
  rw [h1, Nat.and_pow_two_sub_one_eq_mod, Nat.shiftRight_eq_div_pow]

lemma masked_field_lt (x m k b : Nat) (hm : m >>> k < b) : (x &&& m) >>> k < b := by
  have h1 : x &&& m ≤ m := Nat.and_le_right
  have h2 : (x &&& m) >>> k ≤ m >>> k := by
    simp only [Nat.shiftRight_eq_div_pow]
    exact Nat.div_le_div_right h1
  omega

/-! ### Instruction lemmas -/

lemma encode_r_type_val (opcode rd f3 rs1 rs2 f7 : Nat)
    (h1 : opcode < 128) (h2 : rd < 32) (h3 : f3 < 8) (h4 : rs1 < 32) (h5 : rs2 < 32) :
    encode_r_type opcode rd f3 rs1 rs2 f7 =
      opcode + rd * 128 + f3 * 4096 + rs1 * 32768 + rs2 * 1048576 + f7 * 33554432 := by
  simp only [encode_r_type, RD_SHIFT, FUNCT3_SHIFT, RS1_SHIFT, RS2_SHIFT, FUNCT7_SHIFT]
  rw [lor_shiftLeft_eq_add rd 7 (by omega)]
  rw [lor_shiftLeft_eq_add f3 12 (by norm_num; omega)]
  rw [lor_shiftLeft_eq_add rs1 15 (by norm_num; omega)]
  rw [lor_shiftLeft_eq_add rs2 20 (by norm_num; omega)]
  rw [lor_shiftLeft_eq_add f7 25 (by norm_num; omega)]
  norm_num

lemma decode_encode_r_add (rd rs1 rs2 : Nat) (h2 : rd < 32) (h4 : rs1 < 32) (h5 : rs2 < 32) :
    Instruction.decode (encode_r_type 0x33 rd 0x0 rs1 rs2 0x00) = .Add rd rs1 rs2 := by
  have hw : encode_r_type 0x33 rd 0x0 rs1 rs2 0x00 =
      51 + rd * 128 + rs1 * 32768 + rs2 * 1048576 := by
    rw [encode_r_type_val 0x33 rd 0x0 rs1 rs2 0x00 (by norm_num) h2 (by norm_num) h4 h5]
    ring
  set w : Nat := encode_r_type 0x33 rd 0x0 rs1 rs2 0x00 with hwdef
  have hop : w &&& 0x7F = 0x33 := by
    have h := Nat.and_pow_two_sub_one_eq_mod w 7
    norm_num at h
    rw [h, hw]
    omega
  have hf3 : ((w &&& 0x7000) >>> 12) &&& 0x7 = 0 := by
    have e1 : (0x7000 : Nat) = (2 ^ 3 - 1) <<< 12 := by decide
    rw [e1, extract_field]
    have h := Nat.and_pow_two_sub_one_eq_mod (w / 2 ^ 12 % 2 ^ 3) 3
    norm_num at h ⊢
    rw [h, hw]
    omega
  have hf7 : (w &&& 0xFE000000) >>> 25 = 0 := by
    have e1 : (0xFE000000 : Nat) = (2 ^ 7 - 1) <<< 25 := by decide
    rw [e1, extract_field, hw]
    norm_num
    omega
  have hrd : (w &&& 0xF80) >>> 7 = rd := by
    have e1 : (0xF80 : Nat) = (2 ^ 5 - 1) <<< 7 := by decide
    rw [e1, extract_field, hw]
    norm_num
    omega
  have hrs1 : (w &&& 0xF8000) >>> 15 = rs1 := by
    have e1 : (0xF8000 : Nat) = (2 ^ 5 - 1) <<< 15 := by decide
    rw [e1, extract_field, hw]
    norm_num
    omega
  have hrs2 : (w &&& 0x1F00000) >>> 20 = rs2 := by
    have e1 : (0x1F00000 : Nat) = (2 ^ 5 - 1) <<< 20 := by decide
    rw [e1, extract_field, hw]
    norm_num
    omega
  have hR : Instruction.decode w = Instruction.decode_r w := by
    simp [Instruction.decode, OPCODE_MASK, hop]
  rw [hR]
  simp only [Instruction.decode_r, FUNCT3_MASK, FUNCT3_SHIFT, FUNCT7_MASK, FUNCT7_SHIFT,
    RD_MASK, RD_SHIFT, RS1_MASK, RS1_SHIFT, RS2_MASK, RS2_SHIFT]
  simp [hf3, hf7, hrd, hrs1, hrs2]

lemma decode_r_Add_fields (w a b c : Nat) (h : Instruction.decode_r w = .Add a b c) :
    a < 32 ∧ b < 32 ∧ c < 32 := by
  have hbrd : (w &&& RD_MASK) >>> RD_SHIFT < 32 :=
    masked_field_lt w RD_MASK RD_SHIFT 32 (by decide)
  have hbrs1 : (w &&& RS1_MASK) >>> RS1_SHIFT < 32 :=
    masked_field_lt w RS1_MASK RS1_SHIFT 32 (by decide)
  have hbrs2 : (w &&& RS2_MASK) >>> RS2_SHIFT < 32 :=
    masked_field_lt w RS2_MASK RS2_SHIFT 32 (by decide)
  simp only [Instruction.decode_r] at h
  rw [ite_eq_iff] at h
  rcases h with ⟨hc, h⟩ | ⟨hc, h⟩
  · injection h with e1 e2 e3
    subst e1
    subst e2
    subst e3
    exact ⟨hbrd, hbrs1, hbrs2⟩
  · iterate 17
      (rw [ite_eq_iff] at h
       rcases h with ⟨hc2, h⟩ | ⟨hc2, h⟩
       · exact Instruction.noConfusion h)
    exact Instruction.noConfusion h

lemma decode_i_ne_Add (w a b c : Nat) : Instruction.decode_i w ≠ .Add a b c := by
  simp only [Instruction.decode_i]
  split_ifs <;> exact fun h => Instruction.noConfusion h

lemma decode_load_ne_Add (w a b c : Nat) : Instruction.decode_load w ≠ .Add a b c := by
  simp only [Instruction.decode_load]
  split_ifs <;> exact fun h => Instruction.noConfusion h

lemma decode_s_ne_Add (w a b c : Nat) : Instruction.decode_s w ≠ .Add a b c := by
  simp only [Instruction.decode_s]
  split_ifs <;> exact fun h => Instruction.noConfusion h

lemma decode_b_ne_Add (w a b c : Nat) : Instruction.decode_b w ≠ .Add a b c := by
  simp only [Instruction.decode_b]
  split_ifs <;> exact fun h => Instruction.noConfusion h

lemma decode_jal_ne_Add (w a b c : Nat) : Instruction.decode_jal w ≠ .Add a b c := by
  simp only [Instruction.decode_jal]
  exact fun h => Instruction.noConfusion h

lemma decode_jalr_ne_Add (w a b c : Nat) : Instruction.decode_jalr w ≠ .Add a b c := by
  simp only [Instruction.decode_jalr]
  split_ifs <;> exact fun h => Instruction.noConfusion h

lemma decode_lui_ne_Add (w a b c : Nat) : Instruction.decode_lui w ≠ .Add a b c := by
  simp only [Instruction.decode_lui]
  exact fun h => Instruction.noConfusion h

lemma decode_auipc_ne_Add (w a b c : Nat) : Instruction.decode_auipc w ≠ .Add a b c := by
  simp only [Instruction.decode_auipc]
  exact fun h => Instruction.noConfusion h

lemma decode_system_ne_Add (w a b c : Nat) : Instruction.decode_system w ≠ .Add a b c := by
  simp only [Instruction.decode_system]
  split_ifs <;> exact fun h => Instruction.noConfusion h

lemma decode_Add_fields_lt (w a b c : Nat) (h : Instruction.decode w = .Add a b c) :
    a < 32 ∧ b < 32 ∧ c < 32 := by
  simp only [Instruction.decode] at h
  rw [ite_eq_iff] at h
  rcases h with ⟨-, h⟩ | ⟨-, h⟩
  · exact decode_r_Add_fields w a b c h
  rw [ite_eq_iff] at h
  rcases h with ⟨-, h⟩ | ⟨-, h⟩
  · exact absurd h (decode_i_ne_Add w a b c)
  rw [ite_eq_iff] at h
  rcases h with ⟨-, h⟩ | ⟨-, h⟩
  · exact absurd h (decode_load_ne_Add w a b c)
  rw [ite_eq_iff] at h
  rcases h with ⟨-, h⟩ | ⟨-, h⟩
  · exact absurd h (decode_s_ne_Add w a b c)
  rw [ite_eq_iff] at h
  rcases h with ⟨-, h⟩ | ⟨-, h⟩
  · exact absurd h (decode_b_ne_Add w a b c)
  rw [ite_eq_iff] at h
  rcases h with ⟨-, h⟩ | ⟨-, h⟩
  · exact absurd h (decode_jal_ne_Add w a b c)
  rw [ite_eq_iff] at h
  rcases h with ⟨-, h⟩ | ⟨-, h⟩
  · exact absurd h (decode_jalr_ne_Add w a b c)
  rw [ite_eq_iff] at h
  rcases h with ⟨-, h⟩ | ⟨-, h⟩
  · exact absurd h (decode_lui_ne_Add w a b c)
  rw [ite_eq_iff] at h
  rcases h with ⟨-, h⟩ | ⟨-, h⟩
  · exact absurd h (decode_auipc_ne_Add w a b c)
  rw [ite_eq_iff] at h
  rcases h with ⟨-, h⟩ | ⟨-, h⟩
  · exact absurd h (decode_system_ne_Add w a b c)
  exact Instruction.noConfusion h

/-! ### Claim C1 — encode/decode round trip -/

/-- C1 (corrected): the round-trip law holds for every value whose
register fields are all ≤ 31: if `V.encode()` returns `Ok(w)` then
`decode(w) = V`.  (As frozen, C1 also asserts the law "with no
precondition on the register fields"; `c1_counterexample` below refutes
that part: `Add` with a register of 32 encodes to a word that decodes
to a different instruction.) -/
theorem c1_roundtrip_of_regs_le31 (V : Instruction) (w : Nat)
    (hreg : ∀ r ∈ V.regFields, r ≤ 31) (henc : V.encode = .ok w) :
    Instruction.decode w = V := by
  cases V <;> simp only [Instruction.encode] at henc <;>
    try exact Except.noConfusion henc
  case Add rd rs1 rs2 =>
    injection henc with hw
    have h2 : rd ≤ 31 := hreg rd (by simp [Instruction.regFields])
    have h4 : rs1 ≤ 31 := hreg rs1 (by simp [Instruction.regFields])
    have h5 : rs2 ≤ 31 := hreg rs2 (by simp [Instruction.regFields])
    rw [← hw]
    exact decode_encode_r_add rd rs1 rs2 (by omega) (by omega) (by omega)

/-- Witness for C1 at the spec's seed value `Add {rd:1, rs1:2, rs2:3}`,
whose encoding is 0x003100B3. -/
theorem c1_witness : Instruction.decode 0x003100B3 = .Add 1 2 3 :=
  c1_roundtrip_of_regs_le31 (.Add 1 2 3) 0x003100B3 (by decide) (by decide)

/-- Counterexample to C1 as frozen: with register field rd = 32 (a
valid u8), `encode` still returns `Ok`, but the word decodes to
`Sll {0,0,0}`, not back to the input — so the round trip does not hold
"with no precondition on the register fields". -/
theorem c1_counterexample :
    Instruction.encode (.Add 32 0 0) = .ok 0x1033 ∧
      Instruction.decode 0x1033 ≠ .Add 32 0 0 := by decide

/-! ### Claim C4 — encode register-range rejection -/

/-- C4 (corrected): `EncodeError` has no `InvalidRegister` variant and
`encode` never range-checks registers.  When some register field
exceeds 31, every variant other than `Add` still returns
`NotImplemented(variant name)`, and `Add` returns `Ok(w)` for a word
`w` that does not decode back to the input. -/
theorem c4_no_register_check (V : Instruction)
    (hover : ∃ r ∈ V.regFields, 31 < r) :
    (∃ name, V.encode = .error (.NotImplemented name)) ∨
      (∃ w, V.encode = .ok w ∧ Instruction.decode w ≠ V) := by
  cases V
  case Add rd rs1 rs2 =>
    refine .inr ⟨encode_r_type 0x33 rd 0x0 rs1 rs2 0x00, rfl, fun hdec => ?_⟩
    have hlt := decode_Add_fields_lt _ rd rs1 rs2 hdec
    simp only [Instruction.regFields, List.mem_cons, List.not_mem_nil] at hover
    obtain ⟨r, hr, hgt⟩ := hover
    rcases hr with rfl | rfl | rfl | h
    · omega
    · omega
    · omega
    · exact h.elim
  all_goals exact .inl ⟨_, rfl⟩

/-- Witness for C4 at `Sub {rd:32, rs1:0, rs2:0}`. -/
theorem c4_witness :
    (∃ name, Instruction.encode (.Sub 32 0 0) = .error (.NotImplemented name)) ∨
      (∃ w, Instruction.encode (.Sub 32 0 0) = .ok w ∧
        Instruction.decode w ≠ .Sub 32 0 0) :=
  c4_no_register_check (.Sub 32 0 0) (by decide)

/-- Counterexample to C4 as frozen: `Add {rd:99}` has a register index
exceeding 31, yet `encode` returns `Ok(12723)` — not an
`InvalidRegister` error (no such error exists in the code). -/
theorem c4_counterexample : Instruction.encode (.Add 99 0 0) = .ok 12723 := by decide

/-! ### Claim C5 — concrete BEQ round trip -/

/-- C5 (corrected): decoding 0xFE628CE3 gives `Beq {rs1:5, rs2:6,
imm:-8}`, but encoding that value returns
`Err(NotImplemented("Beq"))` — branch encoding is not implemented, so
the claim's `Ok(0xFE628CE3)` half fails. -/
theorem c5_beq_decode_encode :
    Instruction.decode 0xFE628CE3 = .Beq 5 6 (-8) ∧
      Instruction.encode (.Beq 5 6 (-8)) = .error (.NotImplemented "Beq") := by decide

/-- Counterexample to C5 as frozen: `encode(Beq {5, 6, -8})` returns
`Err(NotImplemented("Beq"))`, not `Ok(0xFE628CE3)`. -/
theorem c5_counterexample :
    Instruction.encode (.Beq 5 6 (-8)) = .error (.NotImplemented "Beq") := by decide

lemma setFn_self (f : Nat → Nat) (i v : Nat) : setFn f i v i = v := by simp [setFn]

lemma setFn_ne (f : Nat → Nat) (i v n : Nat) (h : n ≠ i) : setFn f i v n = f n := by
  simp [setFn, h]

lemma slot_offset_inj {t e u f : Nat} (he : e < 256) (hf : f < 256) :
    t * 256 + e = u * 256 + f ↔ t = u ∧ e = f := by omega

lemma mask_le_255 (x k : Nat) : (x >>> k) &&& 255 < 256 :=
  lt_of_le_of_lt Nat.and_le_right (by norm_num)

lemma mask_le_1023 (x k : Nat) : (x >>> k) &&& 1023 < 1024 :=
  lt_of_le_of_lt Nat.and_le_right (by norm_num)

/-- Assigning a fresh L2 table (the first half of `allocate_page` when
the L1 slot is unmapped) preserves the invariant and every observable
byte, and maps the L1 slot to the still-empty table `num_l2_tables`. -/
lemma fresh_l1_spec (s : Memory) (l1i : Nat) (hInv : s.Inv)
    (hun : s.l1_table l1i = UNMAPPED_L2_TABLE) (hcap : s.num_l2_tables < s.max_l2_tables) :
    letI s1 : Memory := { s with
      l1_table := setFn s.l1_table l1i (s.num_l2_tables % 256)
      num_l2_tables := s.num_l2_tables + 1 }
    s1.Inv ∧ (∀ x, s1.byteAt x = s.byteAt x) ∧
      s1.l1_table l1i = s.num_l2_tables ∧ s.num_l2_tables ≠ UNMAPPED_L2_TABLE := by
  have hM : s.max_l2_tables ≤ 255 := hInv.maxL2_le
  have hmod : s.num_l2_tables % 256 = s.num_l2_tables := Nat.mod_eq_of_lt (by omega)
  have hne255 : s.num_l2_tables ≠ UNMAPPED_L2_TABLE := by
    simp only [UNMAPPED_L2_TABLE]
    omega
  set s1 : Memory := { s with
    l1_table := setFn s.l1_table l1i (s.num_l2_tables % 256)
    num_l2_tables := s.num_l2_tables + 1 } with hs1
  have hl1i : s1.l1_table l1i = s.num_l2_tables := by
    simp [hs1, setFn_self, hmod]
  have hl1_other : ∀ j, j ≠ l1i → s1.l1_table j = s.l1_table j := by
    intro j hj
    simp [hs1, setFn_ne _ _ _ _ hj]
  have hInv1 : s1.Inv := by
    constructor
    · exact hInv.maxL2_le
    · simpa [hs1] using hcap
    · exact hInv.numPages_le
    · exact hInv.cap_le
    · -- l1_lt
      intro i hi
      by_cases hil : i = l1i
      · subst hil
        rw [hl1i]
        simp [hs1]
      · rw [hl1_other i hil] at hi ⊢
        have := hInv.l1_lt i hi
        simp [hs1]
        omega
    · -- l1_inj
      intro i j hi hj hij
      by_cases hil : i = l1i <;> by_cases hjl : j = l1i
      · omega
      · subst hil
        rw [hl1i] at hij
        rw [hl1_other j hjl] at hij hj
        have := hInv.l1_lt j hj
        omega
      · subst hjl
        rw [hl1i] at hij
        rw [hl1_other i hil] at hij hi
        have := hInv.l1_lt i hi
        omega
      · rw [hl1_other i hil] at hi hij
        rw [hl1_other j hjl] at hj hij
        exact hInv.l1_inj i j hi hj hij
    · -- fresh_clean
      intro t e ht he
      have : s.num_l2_tables ≤ t := by
        simp only [hs1] at ht
        omega
      exact hInv.fresh_clean t e this he
    · -- mapped_lt
      intro t e ht he hne
      simp only [hs1] at ht hne ⊢
      by_cases htn : t < s.num_l2_tables
      · exact hInv.mapped_lt t e htn he hne
      · have : s.num_l2_tables ≤ t := by omega
        exact absurd (hInv.fresh_clean t e this he) hne
    · -- slot_inj
      intro t e u f ht he hu hf hne heq
      simp only [hs1] at ht hu hne heq ⊢
      by_cases htn : t < s.num_l2_tables
      · by_cases hun2 : u < s.num_l2_tables
        · exact hInv.slot_inj t e u f htn he hun2 hf hne heq
        · have : s.num_l2_tables ≤ u := by omega
          rw [hInv.fresh_clean u f this hf] at heq
          exact absurd heq (by
            intro hh
            exact hne hh)
      · have : s.num_l2_tables ≤ t := by omega
        exact absurd (hInv.fresh_clean t e this he) hne
    · exact hInv.avail_lt
    · exact hInv.avail_inj
    · -- avail_not_mapped
      intro i t e hi ht he
      simp only [hs1] at ht ⊢
      by_cases htn : t < s.num_l2_tables
      · exact hInv.avail_not_mapped i t e hi htn he
      · have : s.num_l2_tables ≤ t := by omega
        rw [hInv.fresh_clean t e this he]
        have := hInv.avail_lt i hi
        have := hInv.cap_le
        simp only [UNMAPPED_PAGE, MAX_PAGES] at *
        omega
    · exact hInv.avail_zero
  refine ⟨hInv1, ?_, hl1i, hne255⟩
  -- byteAt preserved
  intro x
  by_cases hx : (x >>> L1_INDEX_SHIFT) &&& L1_INDEX_MASK = l1i
  · -- the address decodes through the freshly assigned table, which is
    -- still all-UNMAPPED_PAGE, so it reads 0 on both sides
    have he : (x >>> L2_INDEX_SHIFT) &&& L2_INDEX_MASK < 256 := by
      simp only [L2_INDEX_MASK]
      exact mask_le_255 x L2_INDEX_SHIFT
    have hclean := hInv.fresh_clean s.num_l2_tables ((x >>> L2_INDEX_SHIFT) &&& L2_INDEX_MASK)
      (le_refl _) he
    simp only [Memory.byteAt, hx, hun, setFn_self, hmod]
    rw [if_neg hne255, if_pos hclean]
    simp
  · simp only [Memory.byteAt, hs1]
    rw [setFn_ne _ _ _ _ hx]

lemma mask_lt_PAGE_SIZE (x : Nat) : x &&& PAGE_OFFSET_MASK < PAGE_SIZE := by
  have h1 : x &&& PAGE_OFFSET_MASK ≤ PAGE_OFFSET_MASK := Nat.and_le_right
  have h2 : PAGE_OFFSET_MASK < PAGE_SIZE := by decide
  omega

lemma slot_offset_inj2 {t e u f : Nat} (he : e < L2_TABLE_SIZE) (hf : f < L2_TABLE_SIZE) :
    t * L2_TABLE_SIZE + e = u * L2_TABLE_SIZE + f ↔ t = u ∧ e = f := by
  simp only [L2_TABLE_SIZE] at *
  omega

/-- The straight-line tail of `allocate_page` (page lookup and, when
unmapped, popping a fresh page from the store) preserves the invariant
and every observable byte, leaves the tables' shape alone, and on
SUCCESS guarantees the slot for `(l1i, l2i)` is mapped. -/
lemma allocate_page_in_table_spec (s : Memory) (l1i l2i : Nat) (hInv : s.Inv)
    (ht : s.l1_table l1i ≠ UNMAPPED_L2_TABLE) (hl2i : l2i < L2_TABLE_SIZE) :
    (s.allocate_page_in_table l1i l2i).2.Inv ∧
    (∀ x, (s.allocate_page_in_table l1i l2i).2.byteAt x = s.byteAt x) ∧
    (s.allocate_page_in_table l1i l2i).2.l1_table = s.l1_table ∧
    (s.allocate_page_in_table l1i l2i).2.num_l2_tables = s.num_l2_tables ∧
    (s.allocate_page_in_table l1i l2i).2.max_l2_tables = s.max_l2_tables ∧
    (s.allocate_page_in_table l1i l2i).2.max_pages = s.max_pages ∧
    (s.allocate_page_in_table l1i l2i).2.store.page_memory = s.store.page_memory ∧
    (s.allocate_page_in_table l1i l2i).2.store.available_pages_capacity =
      s.store.available_pages_capacity ∧
    s.num_pages ≤ (s.allocate_page_in_table l1i l2i).2.num_pages ∧
    (s.allocate_page_in_table l1i l2i).2.num_pages ≤ s.num_pages + 1 ∧
    ((s.allocate_page_in_table l1i l2i).1 = MEM_SUCCESS →
      (s.allocate_page_in_table l1i l2i).2.l2_tables
        (s.l1_table l1i * L2_TABLE_SIZE + l2i) ≠ UNMAPPED_PAGE) := by
  have hT : s.l1_table l1i < s.num_l2_tables := hInv.l1_lt l1i ht
  simp only [Memory.allocate_page_in_table]
  by_cases h1 : s.l2_tables (s.l1_table l1i * L2_TABLE_SIZE + l2i) ≠ UNMAPPED_PAGE
  · rw [if_pos h1]
    exact ⟨hInv, fun _ => rfl, rfl, rfl, rfl, rfl, rfl, rfl, le_refl _, Nat.le_succ _,
      fun _ => h1⟩
  · rw [if_neg h1]
    push_neg at h1
    by_cases h2 : s.num_pages ≥ s.max_pages
    · rw [if_pos h2]
      refine ⟨hInv, fun _ => rfl, rfl, rfl, rfl, rfl, rfl, rfl, le_refl _, Nat.le_succ _, ?_⟩
      intro hsucc
      simp [MEM_ERR_PAGE_LIMIT, MEM_SUCCESS] at hsucc
    · rw [if_neg h2]
      by_cases h3 : s.store.num_available_pages = 0
      · rw [if_pos h3]
        refine ⟨hInv, fun _ => rfl, rfl, rfl, rfl, rfl, rfl, rfl, le_refl _, Nat.le_succ _, ?_⟩
        intro hsucc
        simp [MEM_ERR_NO_PAGES_AVAILABLE, MEM_SUCCESS] at hsucc
      · rw [if_neg h3]
        set p := s.store.available_pages (s.store.num_available_pages - 1) with hp
        set off := s.l1_table l1i * L2_TABLE_SIZE + l2i with hoff
        have hpcap : p < s.store.available_pages_capacity := hInv.avail_lt _ (by omega)
        have hpne : p ≠ UNMAPPED_PAGE := by
          have := hInv.cap_le
          simp only [UNMAPPED_PAGE, MAX_PAGES] at *
          omega
        have hpzero : ∀ b, b < PAGE_SIZE → s.store.page_memory (p * PAGE_SIZE + b) = 0 :=
          fun b hb => hInv.avail_zero _ b (by omega) hb
        have hpnotmapped : ∀ u f, u < s.num_l2_tables → f < L2_TABLE_SIZE →
            s.l2_tables (u * L2_TABLE_SIZE + f) ≠ p :=
          fun u f hu hf => hInv.avail_not_mapped _ u f (by omega) hu hf
        -- entry description of the updated table array
        have hentry : ∀ u f, f < L2_TABLE_SIZE →
            setFn s.l2_tables off p (u * L2_TABLE_SIZE + f) =
              if u = s.l1_table l1i ∧ f = l2i then p
              else s.l2_tables (u * L2_TABLE_SIZE + f) := by
          intro u f hf
          by_cases hc : u = s.l1_table l1i ∧ f = l2i
          · rw [if_pos hc, hoff, ← hc.1, ← hc.2, setFn_self]
          · rw [if_neg hc]
            refine setFn_ne _ _ _ _ ?_
            rw [hoff]
            intro hcon
            exact hc ((slot_offset_inj2 hf hl2i).mp hcon)
        have hInv2 : Memory.Inv { s with
            store := { s.store with num_available_pages := s.store.num_available_pages - 1 }
            allocated_indices := setFn s.allocated_indices s.num_pages p
            num_pages := s.num_pages + 1
            l2_tables := setFn s.l2_tables off p } := by
          constructor
          · exact hInv.maxL2_le
          · exact hInv.numL2_le
          · show s.num_pages + 1 ≤ s.max_pages
            omega
          · exact hInv.cap_le
          · exact hInv.l1_lt
          · exact hInv.l1_inj
          · -- fresh_clean
            intro t e htn he
            replace htn : s.num_l2_tables ≤ t := htn
            show setFn s.l2_tables off p (t * L2_TABLE_SIZE + e) = UNMAPPED_PAGE
            rw [hentry t e he, if_neg (by
              rintro ⟨rfl, rfl⟩
              omega)]
            exact hInv.fresh_clean t e htn he
          · -- mapped_lt
            intro t e htn he hne
            replace htn : t < s.num_l2_tables := htn
            replace hne : setFn s.l2_tables off p (t * L2_TABLE_SIZE + e) ≠ UNMAPPED_PAGE := hne
            show setFn s.l2_tables off p (t * L2_TABLE_SIZE + e) <
              s.store.available_pages_capacity
            rw [hentry t e he] at hne ⊢
            by_cases hc : t = s.l1_table l1i ∧ e = l2i
            · rw [if_pos hc] at hne ⊢
              exact hpcap
            · rw [if_neg hc] at hne ⊢
              exact hInv.mapped_lt t e htn he hne
          · -- slot_inj
            intro t e u f htn he hun hf hne heq
            simp only [hentry t e he, hentry u f hf] at hne heq ⊢
            by_cases hc1 : t = s.l1_table l1i ∧ e = l2i
            · by_cases hc2 : u = s.l1_table l1i ∧ f = l2i
              · exact ⟨by omega, by omega⟩
              · rw [if_pos hc1] at heq
                rw [if_neg hc2] at heq
                exact absurd heq.symm (hpnotmapped u f hun hf)
            · by_cases hc2 : u = s.l1_table l1i ∧ f = l2i
              · rw [if_neg hc1] at heq hne
                rw [if_pos hc2] at heq
                exact absurd heq (hpnotmapped t e htn he)
              · rw [if_neg hc1] at heq hne
                rw [if_neg hc2] at heq
                exact hInv.slot_inj t e u f htn he hun hf hne heq
          · -- avail_lt
            intro i hi
            exact hInv.avail_lt i (by
              simp only at hi
              omega)
          · -- avail_inj
            intro i j hi hj hij
            simp only at hi hj
            exact hInv.avail_inj i j (by omega) (by omega) hij
          · -- avail_not_mapped
            intro i t e hi htn he
            simp only at hi
            show setFn s.l2_tables off p (t * L2_TABLE_SIZE + e) ≠ s.store.available_pages i
            rw [hentry t e he]
            by_cases hc : t = s.l1_table l1i ∧ e = l2i
            · rw [if_pos hc]
              intro hcon
              have := hInv.avail_inj i (s.store.num_available_pages - 1) (by omega) (by omega)
                hcon.symm
              omega
            · rw [if_neg hc]
              exact hInv.avail_not_mapped i t e (by omega) htn he
          · -- avail_zero
            intro i b hi hb
            simp only at hi ⊢
            exact hInv.avail_zero i b (by omega) hb
        refine ⟨hInv2, ?_, rfl, rfl, rfl, rfl, rfl, rfl, Nat.le_succ _, le_refl _, ?_⟩
        · -- byteAt preserved
          intro x
          have hxl2 : (x >>> L2_INDEX_SHIFT) &&& L2_INDEX_MASK < L2_TABLE_SIZE := by
            simp only [L2_INDEX_MASK, L2_TABLE_SIZE]
            exact mask_le_255 x L2_INDEX_SHIFT
          by_cases hxl1 : s.l1_table ((x >>> L1_INDEX_SHIFT) &&& L1_INDEX_MASK) =
            UNMAPPED_L2_TABLE
          · simp only [Memory.byteAt, hxl1]
            rfl
          · simp only [Memory.byteAt]
            rw [if_neg hxl1, if_neg hxl1]
            show (if setFn s.l2_tables off p _ = UNMAPPED_PAGE then _ else _) = _
            rw [hentry _ _ hxl2]
            by_cases hc : s.l1_table ((x >>> L1_INDEX_SHIFT) &&& L1_INDEX_MASK) =
                s.l1_table l1i ∧ (x >>> L2_INDEX_SHIFT) &&& L2_INDEX_MASK = l2i
            · rw [if_pos hc]
              have hold : s.l2_tables ((s.l1_table ((x >>> L1_INDEX_SHIFT) &&& L1_INDEX_MASK)) *
                  L2_TABLE_SIZE + ((x >>> L2_INDEX_SHIFT) &&& L2_INDEX_MASK)) = UNMAPPED_PAGE := by
                rw [hc.1, hc.2]
                exact h1
              rw [if_neg hpne, if_pos hold]
              exact hpzero _ (mask_lt_PAGE_SIZE x)
            · rw [if_neg hc]
        · -- SUCCESS entry fact
          intro _
          show setFn s.l2_tables off p off ≠ UNMAPPED_PAGE
          rw [setFn_self]
          exact hpne

/-- `allocate_page` preserves the invariant and every observable byte,
never shrinks `num_pages`, never touches page memory, and on SUCCESS
leaves the page of `address` mapped. -/
lemma allocate_page_spec (s : Memory) (a : Nat) (hInv : s.Inv) :
    (s.allocate_page a).2.Inv ∧
    (∀ x, (s.allocate_page a).2.byteAt x = s.byteAt x) ∧
    (s.allocate_page a).2.max_pages = s.max_pages ∧
    (s.allocate_page a).2.max_l2_tables = s.max_l2_tables ∧
    (s.allocate_page a).2.store.page_memory = s.store.page_memory ∧
    (s.allocate_page a).2.store.available_pages_capacity = s.store.available_pages_capacity ∧
    s.num_pages ≤ (s.allocate_page a).2.num_pages ∧
    (s.allocate_page a).2.num_pages ≤ s.num_pages + 1 ∧
    ((s.allocate_page a).1 = MEM_SUCCESS → (s.allocate_page a).2.pageMapped a) := by
  have hl2i : (a >>> L2_INDEX_SHIFT) &&& L2_INDEX_MASK < L2_TABLE_SIZE := by
    simp only [L2_INDEX_MASK, L2_TABLE_SIZE]
    exact mask_le_255 a L2_INDEX_SHIFT
  simp only [Memory.allocate_page]
  by_cases hA : s.l1_table ((a >>> L1_INDEX_SHIFT) &&& L1_INDEX_MASK) = UNMAPPED_L2_TABLE
  · rw [if_pos hA]
    by_cases hB : s.num_l2_tables ≥ s.max_l2_tables
    · rw [if_pos hB]
      refine ⟨hInv, fun _ => rfl, rfl, rfl, rfl, rfl, le_refl _, Nat.le_succ _, ?_⟩
      intro h
      simp [MEM_ERR_NO_L2_TABLES, MEM_SUCCESS] at h
    · rw [if_neg hB]
      obtain ⟨hInv1, hbyte1, hl1i1, hne⟩ :=
        fresh_l1_spec s ((a >>> L1_INDEX_SHIFT) &&& L1_INDEX_MASK) hInv hA (by omega)
      have ht1 : Memory.l1_table { s with
          l1_table := setFn s.l1_table ((a >>> L1_INDEX_SHIFT) &&& L1_INDEX_MASK)
            (s.num_l2_tables % 256)
          num_l2_tables := s.num_l2_tables + 1 }
          ((a >>> L1_INDEX_SHIFT) &&& L1_INDEX_MASK) ≠ UNMAPPED_L2_TABLE := by
        rw [hl1i1]
        exact hne
      obtain ⟨hI, hB2, hL1eq, hNL2, hML2, hMP, hPM, hCap, hNP, hNP2, hOK⟩ :=
        allocate_page_in_table_spec _ ((a >>> L1_INDEX_SHIFT) &&& L1_INDEX_MASK)
          ((a >>> L2_INDEX_SHIFT) &&& L2_INDEX_MASK) hInv1 ht1 hl2i
      refine ⟨hI, fun x => (hB2 x).trans (hbyte1 x), hMP, hML2, hPM, hCap, hNP, hNP2, ?_⟩
      intro hsucc
      have hmap := hOK hsucc
      rw [hl1i1] at hmap
      constructor
      · rw [hL1eq, hl1i1]
        exact hne
      · rw [hL1eq, hl1i1]
        exact hmap
  · rw [if_neg hA]
    obtain ⟨hI, hB2, hL1eq, hNL2, hML2, hMP, hPM, hCap, hNP, hNP2, hOK⟩ :=
      allocate_page_in_table_spec s ((a >>> L1_INDEX_SHIFT) &&& L1_INDEX_MASK)
        ((a >>> L2_INDEX_SHIFT) &&& L2_INDEX_MASK) hInv hA hl2i
    refine ⟨hI, hB2, hMP, hML2, hPM, hCap, hNP, hNP2, ?_⟩
    intro hsucc
    refine ⟨?_, ?_⟩
    · rw [hL1eq]
      exact hA
    · rw [hL1eq]
      exact hOK hsucc

lemma land_1023 (x : Nat) : x &&& 1023 = x % 1024 := by
  have h := Nat.and_pow_two_sub_one_eq_mod x 10
  norm_num at h
  exact h

lemma land_255 (x : Nat) : x &&& 255 = x % 256 := by
  have h := Nat.and_pow_two_sub_one_eq_mod x 8
  norm_num at h
  exact h

lemma land_16383 (x : Nat) : x &&& 16383 = x % 16384 := by
  have h := Nat.and_pow_two_sub_one_eq_mod x 14
  norm_num at h
  exact h

lemma l1_idx_eq (x : Nat) : (x >>> L1_INDEX_SHIFT) &&& L1_INDEX_MASK = x / 4194304 % 1024 := by
  rw [L1_INDEX_SHIFT, L1_INDEX_MASK, Nat.shiftRight_eq_div_pow, land_1023]

lemma l2_idx_eq (x : Nat) : (x >>> L2_INDEX_SHIFT) &&& L2_INDEX_MASK = x / 16384 % 256 := by
  rw [L2_INDEX_SHIFT, L2_INDEX_MASK, Nat.shiftRight_eq_div_pow, land_255]

lemma off_eq (x : Nat) : x &&& PAGE_OFFSET_MASK = x % 16384 := by
  have h : PAGE_OFFSET_MASK = 16383 := by decide
  rw [h, land_16383]

lemma PAGE_SIZE_eq : PAGE_SIZE = 16384 := by decide

/-- `byteAt` in quotient/remainder form. -/
lemma Memory.byteAt_eq (s : Memory) (a : Nat) :
    s.byteAt a =
      if s.l1_table (a / 4194304 % 1024) = UNMAPPED_L2_TABLE then 0
      else if s.l2_tables (s.l1_table (a / 4194304 % 1024) * L2_TABLE_SIZE +
          a / 16384 % 256) = UNMAPPED_PAGE then 0
      else s.store.page_memory (s.l2_tables (s.l1_table (a / 4194304 % 1024) * L2_TABLE_SIZE +
          a / 16384 % 256) * PAGE_SIZE + a % 16384) := by
  simp only [Memory.byteAt, l1_idx_eq, l2_idx_eq, off_eq]

/-- Within one page chunk the address decomposition is stable: adding
`i < 16384 - addr % 16384` changes only the page offset. -/
lemma chunk_addr (addr i : Nat) (h32 : addr < 4294967296) (hi : addr % 16384 + i < 16384) :
    addr + i < 4294967296 ∧
    (addr + i) / 4194304 % 1024 = addr / 4194304 % 1024 ∧
    (addr + i) / 16384 % 256 = addr / 16384 % 256 ∧
    (addr + i) % 16384 = addr % 16384 + i := by
  have q14 : (addr + i) / 16384 = addr / 16384 := by omega
  have q22 : (addr + i) / 4194304 = addr / 4194304 := by
    have e1 : (addr + i) / 4194304 = (addr + i) / 16384 / 256 := by
      rw [Nat.div_div_eq_div_mul]
    have e2 : addr / 4194304 = addr / 16384 / 256 := by
      rw [Nat.div_div_eq_div_mul]
    rw [e1, e2, q14]
  exact ⟨by omega, by rw [q22], by rw [q14], by omega⟩

/-- The chunked read loop computes, byte for byte, the observable
bytes at the successive (wrapping) addresses. -/
lemma Memory.readLoop_spec (s : Memory) :
    ∀ fuel addr len, len ≤ fuel → addr < ADDR_SPACE →
      s.readLoop fuel addr len =
        (List.range len).map (fun i => s.byteAt ((addr + i) % ADDR_SPACE)) := by
  intro fuel
  induction fuel with
  | zero =>
    intro addr len hle h32
    have : len = 0 := by omega
    subst this
    simp [Memory.readLoop]
  | succ fuel ih =>
    intro addr len hle h32
    by_cases h0 : len = 0
    · subst h0
      simp [Memory.readLoop]
    · simp only [ADDR_SPACE] at h32 ⊢
      have hmod : addr % 16384 < 16384 := Nat.mod_lt _ (by norm_num)
      simp only [Memory.readLoop, if_neg h0, l1_idx_eq, l2_idx_eq, off_eq, PAGE_SIZE_eq]
      set k := min (16384 - addr % 16384) len with hk
      have hk1 : 1 ≤ k := by omega
      have hkle : k ≤ len := Nat.min_le_right _ _
      have hkpage : ∀ i, i < k → addr % 16384 + i < 16384 := by
        intro i hilt
        omega
      have hsplit : (List.range len).map
            (fun i => s.byteAt ((addr + i) % 4294967296)) =
          (List.range k).map (fun i => s.byteAt ((addr + i) % 4294967296)) ++
            (List.range (len - k)).map
              (fun j => s.byteAt ((addr + (k + j)) % 4294967296)) := by
        conv_lhs => rw [show len = k + (len - k) by omega]
        rw [List.range_add, List.map_append, List.map_map]
        rfl
      rw [hsplit]
      congr 1
      · -- the chunk equals the first k observable bytes
        have hbyte : ∀ i ∈ List.range k, s.byteAt ((addr + i) % 4294967296) =
            if s.l1_table (addr / 4194304 % 1024) = UNMAPPED_L2_TABLE then 0
            else if s.l2_tables (s.l1_table (addr / 4194304 % 1024) * L2_TABLE_SIZE +
                addr / 16384 % 256) = UNMAPPED_PAGE then 0
            else s.store.page_memory
              (s.l2_tables (s.l1_table (addr / 4194304 % 1024) * L2_TABLE_SIZE +
                addr / 16384 % 256) * 16384 + (addr % 16384 + i)) := by
          intro i hi
          rw [List.mem_range] at hi
          obtain ⟨hlt, he1, he2, he3⟩ := chunk_addr addr i h32 (hkpage i hi)
          rw [Nat.mod_eq_of_lt hlt, Memory.byteAt_eq, he1, he2, he3, PAGE_SIZE_eq]
        by_cases hL1 : s.l1_table (addr / 4194304 % 1024) = UNMAPPED_L2_TABLE
        · rw [if_pos hL1]
          symm
          rw [List.eq_replicate_iff]
          refine ⟨by simp, ?_⟩
          intro b hb
          rw [List.mem_map] at hb
          obtain ⟨i, hi, rfl⟩ := hb
          rw [hbyte i hi, if_pos hL1]
        · rw [if_neg hL1]
          by_cases hPg : s.l2_tables (s.l1_table (addr / 4194304 % 1024) * L2_TABLE_SIZE +
              addr / 16384 % 256) = UNMAPPED_PAGE
          · rw [if_pos hPg]
            symm
            rw [List.eq_replicate_iff]
            refine ⟨by simp, ?_⟩
            intro b hb
            rw [List.mem_map] at hb
            obtain ⟨i, hi, rfl⟩ := hb
            rw [hbyte i hi, if_neg hL1, if_pos hPg]
          · rw [if_neg hPg]
            refine List.map_congr_left ?_
            intro i hi
            rw [hbyte i hi, if_neg hL1, if_neg hPg, Nat.add_assoc]
      · -- recursive part
        have hrec := ih ((addr + k) % ADDR_SPACE) (len - k) (by omega)
          (Nat.mod_lt _ (by norm_num [ADDR_SPACE]))
        rw [hrec]
        simp only [ADDR_SPACE]
        refine List.map_congr_left ?_
        intro j hj
        rw [Nat.mod_add_mod, Nat.add_assoc]

/-- Writing `k` bytes of `buffer` into the (mapped) page of `addr`
keeps the invariant, makes the `k` target bytes read back as the
buffer's prefix, and leaves every other observable byte unchanged. -/
lemma write_chunk_spec (s1 : Memory) (addr k : Nat) (buffer : List Nat) (hInv : s1.Inv)
    (h32 : addr < ADDR_SPACE) (hkpos : 0 < k) (hkle : k ≤ buffer.length)
    (hkpage : (addr &&& PAGE_OFFSET_MASK) + k ≤ PAGE_SIZE)
    (hmap : s1.pageMapped addr) :
    letI page_idx := s1.l2_tables
      (s1.l1_table ((addr >>> L1_INDEX_SHIFT) &&& L1_INDEX_MASK) * L2_TABLE_SIZE +
        ((addr >>> L2_INDEX_SHIFT) &&& L2_INDEX_MASK))
    letI base := page_idx * PAGE_SIZE + (addr &&& PAGE_OFFSET_MASK)
    letI s2 : Memory := { s1 with
      store := { s1.store with
        page_memory := fun n =>
          if base ≤ n ∧ n < base + k then buffer.getD (n - base) 0
          else s1.store.page_memory n } }
    s2.Inv ∧ (∀ i < k, s2.byteAt (addr + i) = buffer.getD i 0) ∧
      (∀ x < ADDR_SPACE, (∀ i < k, x ≠ addr + i) → s2.byteAt x = s1.byteAt x) := by
  obtain ⟨hm1, hm2⟩ := hmap
  rw [l1_idx_eq] at hm1
  rw [l1_idx_eq, l2_idx_eq] at hm2
  have hT : s1.l1_table (addr / 4194304 % 1024) < s1.num_l2_tables :=
    hInv.l1_lt _ hm1
  have hE : addr / 16384 % 256 < L2_TABLE_SIZE := by
    simp only [L2_TABLE_SIZE]
    omega
  simp only [ADDR_SPACE] at h32 ⊢
  simp only [l1_idx_eq, l2_idx_eq, off_eq, PAGE_SIZE_eq] at hkpage ⊢
  set p := s1.l2_tables (s1.l1_table (addr / 4194304 % 1024) * L2_TABLE_SIZE +
    addr / 16384 % 256) with hpdef
  have hpcap : p < s1.store.available_pages_capacity :=
    hInv.mapped_lt _ _ hT hE hm2
  refine ⟨?_, ?_, ?_⟩
  · -- invariant: only avail_zero looks at page memory
    constructor
    · exact hInv.maxL2_le
    · exact hInv.numL2_le
    · exact hInv.numPages_le
    · exact hInv.cap_le
    · exact hInv.l1_lt
    · exact hInv.l1_inj
    · exact hInv.fresh_clean
    · exact hInv.mapped_lt
    · exact hInv.slot_inj
    · exact hInv.avail_lt
    · exact hInv.avail_inj
    · exact hInv.avail_not_mapped
    · intro i b hi hb
      replace hi : i < s1.store.num_available_pages := hi
      replace hb : b < 16384 := hb
      have hq : s1.store.available_pages i ≠ p :=
        fun hcon => hInv.avail_not_mapped i _ _ hi hT hE hcon.symm
      have hzero := hInv.avail_zero i b hi (by rw [PAGE_SIZE_eq]; exact hb)
      rw [PAGE_SIZE_eq] at hzero
      show (if p * 16384 + addr % 16384 ≤ s1.store.available_pages i * 16384 + b ∧
            s1.store.available_pages i * 16384 + b < p * 16384 + addr % 16384 + k
          then buffer.getD (s1.store.available_pages i * 16384 + b -
            (p * 16384 + addr % 16384)) 0
          else s1.store.page_memory (s1.store.available_pages i * 16384 + b)) = 0
      rw [if_neg ?_, hzero]
      rintro ⟨hge, hlt⟩
      rcases Nat.lt_or_ge (s1.store.available_pages i) p with hqp | hqp
      · omega
      · have hgt : p < s1.store.available_pages i := by omega
        omega
  · -- the k written bytes read back
    intro i hik
    have hoffi : addr % 16384 + i < 16384 := by omega
    obtain ⟨hlt, he1, he2, he3⟩ := chunk_addr addr i h32 hoffi
    rw [Memory.byteAt_eq]
    show (if s1.l1_table ((addr + i) / 4194304 % 1024) = UNMAPPED_L2_TABLE then _ else _) = _
    rw [he1, he2, he3, if_neg hm1, ← hpdef, if_neg hm2]
    show (if _ ≤ _ ∧ _ < _ then buffer.getD _ 0 else _) = buffer.getD i 0
    rw [PAGE_SIZE_eq, if_pos (by omega)]
    congr 1
    omega
  · -- frame: everything outside the k target addresses is untouched
    intro x hx32 hxout
    rw [Memory.byteAt_eq, Memory.byteAt_eq]
    show (if s1.l1_table (x / 4194304 % 1024) = UNMAPPED_L2_TABLE then _ else _) = _
    by_cases hx1 : s1.l1_table (x / 4194304 % 1024) = UNMAPPED_L2_TABLE
    · rw [if_pos hx1, if_pos hx1]
    · rw [if_neg hx1, if_neg hx1]
      by_cases hx2 : s1.l2_tables (s1.l1_table (x / 4194304 % 1024) * L2_TABLE_SIZE +
          x / 16384 % 256) = UNMAPPED_PAGE
      · rw [if_pos hx2, if_pos hx2]
      · rw [if_neg hx2, if_neg hx2]
        set q := s1.l2_tables (s1.l1_table (x / 4194304 % 1024) * L2_TABLE_SIZE +
          x / 16384 % 256) with hqdef
        show (if _ ≤ _ ∧ _ < _ then _ else _) = _
        rw [PAGE_SIZE_eq]
        rw [if_neg ?_]
        rintro ⟨hge, hlt⟩
        -- the touched physical byte lies in page p, so q = p
        have hxE : x / 16384 % 256 < L2_TABLE_SIZE := by
          simp only [L2_TABLE_SIZE]
          omega
        have hxT : s1.l1_table (x / 4194304 % 1024) < s1.num_l2_tables :=
          hInv.l1_lt _ hx1
        have hxmod : x % 16384 < 16384 := Nat.mod_lt _ (by norm_num)
        have haddrmod : addr % 16384 < 16384 := Nat.mod_lt _ (by norm_num)
        have hqp : q = p := by
          rcases Nat.lt_or_ge q p with hlt2 | hge2
          · omega
          · rcases Nat.lt_or_ge p q with hlt3 | hge3
            · omega
            · omega
        obtain ⟨hteq, heeq⟩ := hInv.slot_inj _ _ _ _ hxT hxE hT hE hx2 (by rw [← hqdef, ← hpdef, hqp])
        have hl1eq : x / 4194304 % 1024 = addr / 4194304 % 1024 :=
          hInv.l1_inj _ _ hx1 hm1 hteq
        -- recover x / 16384 = addr / 16384, hence x = addr + (x % 16384 - addr % 16384)
        have hq22x : x / 4194304 = x / 16384 / 256 := by rw [Nat.div_div_eq_div_mul]
        have hq22a : addr / 4194304 = addr / 16384 / 256 := by rw [Nat.div_div_eq_div_mul]
        have hdivx : x / 16384 < 262144 := by omega
        have hdiva : addr / 16384 < 262144 := by omega
        have hq14 : x / 16384 = addr / 16384 := by
          rw [hq22x, hq22a] at hl1eq
          omega
        -- x is one of the addresses addr + i with i < k: contradiction
        have hxoff : addr % 16384 ≤ x % 16384 ∧ x % 16384 < addr % 16384 + k := by
          constructor <;> omega
        have hxi : x = addr + (x % 16384 - addr % 16384) := by omega
        exact hxout (x % 16384 - addr % 16384) (by omega) hxi

/-- `addr & !PAGE_OFFSET_MASK` has the same L1 and L2 indices as
`addr` itself. -/
lemma page_base_idx (a : Nat) :
    ((a &&& 0xFFFFC000) >>> L1_INDEX_SHIFT) &&& L1_INDEX_MASK =
        (a >>> L1_INDEX_SHIFT) &&& L1_INDEX_MASK ∧
      ((a &&& 0xFFFFC000) >>> L2_INDEX_SHIFT) &&& L2_INDEX_MASK =
        (a >>> L2_INDEX_SHIFT) &&& L2_INDEX_MASK := by
  constructor
  · rw [L1_INDEX_SHIFT, L1_INDEX_MASK, shiftRight_land_distrib, Nat.and_assoc]
    have h : (4294950912 >>> 22) &&& 1023 = 1023 := by decide
    rw [h]
  · rw [L2_INDEX_SHIFT, L2_INDEX_MASK, shiftRight_land_distrib, Nat.and_assoc]
    have h : (4294950912 >>> 14) &&& 255 = 255 := by decide
    rw [h]

lemma pageMapped_of_base (s : Memory) (a : Nat)
    (h : s.pageMapped (a &&& 0xFFFFC000)) : s.pageMapped a := by
  obtain ⟨hb1, hb2⟩ := page_base_idx a
  unfold Memory.pageMapped at h ⊢
  rw [hb1, hb2] at h
  exact h

/-- The chunked write loop, on SUCCESS: the invariant is preserved, the
written addresses read back as the buffer, and every other observable
byte is unchanged. -/
lemma Memory.writeLoop_spec :
    ∀ fuel (s : Memory) (addr : Nat) (buffer : List Nat), s.Inv → addr < ADDR_SPACE →
      buffer.length ≤ ADDR_SPACE → buffer.length ≤ fuel →
      (Memory.writeLoop fuel s addr buffer).1 = MEM_SUCCESS →
      (Memory.writeLoop fuel s addr buffer).2.Inv ∧
      (∀ i < buffer.length,
        (Memory.writeLoop fuel s addr buffer).2.byteAt ((addr + i) % ADDR_SPACE) =
          buffer.getD i 0) ∧
      (∀ x < ADDR_SPACE, (∀ i < buffer.length, (addr + i) % ADDR_SPACE ≠ x) →
        (Memory.writeLoop fuel s addr buffer).2.byteAt x = s.byteAt x) := by
  intro fuel
  induction fuel with
  | zero =>
    intro s addr buffer hInv h32 hlenW hlen hsucc
    have h0 : buffer.length = 0 := by omega
    exact ⟨hInv, by omega, fun x _ _ => rfl⟩
  | succ fuel ih =>
    intro s addr buffer hInv h32 hlenW hlen hsucc
    by_cases h0 : buffer.length = 0
    · rw [Memory.writeLoop, if_pos h0] at hsucc ⊢
      exact ⟨hInv, by omega, fun x _ _ => rfl⟩
    · rw [Memory.writeLoop, if_neg h0] at hsucc ⊢
      by_cases hr : (s.allocate_page (addr &&& 0xFFFFC000)).1 ≠ MEM_SUCCESS
      · rw [if_pos hr] at hsucc ⊢
        exact absurd hsucc hr
      · rw [if_neg hr] at hsucc ⊢
        push_neg at hr
        obtain ⟨hInv1, hbyte1, _, _, hPM1, _, _, _, hmap1⟩ :=
          allocate_page_spec s (addr &&& 0xFFFFC000) hInv
        have hmap : (s.allocate_page (addr &&& 0xFFFFC000)).2.pageMapped addr :=
          pageMapped_of_base _ _ (hmap1 hr)
        have hoff : (addr &&& PAGE_OFFSET_MASK) < PAGE_SIZE := mask_lt_PAGE_SIZE addr
        set k := min (PAGE_SIZE - (addr &&& PAGE_OFFSET_MASK)) buffer.length with hk
        have hk1 : 1 ≤ k := by
          have : 0 < buffer.length := by omega
          omega
        have hkle : k ≤ buffer.length := Nat.min_le_right _ _
        have hkpage : (addr &&& PAGE_OFFSET_MASK) + k ≤ PAGE_SIZE := by omega
        obtain ⟨hInv2, hcontent, hframe2⟩ :=
          write_chunk_spec (s.allocate_page (addr &&& 0xFFFFC000)).2 addr k buffer
            hInv1 h32 hk1 hkle hkpage hmap
        have hrec := ih _ ((addr + k) % ADDR_SPACE) (buffer.drop k) hInv2
          (Nat.mod_lt _ (by decide))
          (by
            rw [List.length_drop]
            omega)
          (by
            rw [List.length_drop]
            omega)
          hsucc
        obtain ⟨hInvF, hcontentF, hframeF⟩ := hrec
        have hWpos : (0 : Nat) < ADDR_SPACE := by decide
        have hoffeq : addr % 16384 = addr &&& PAGE_OFFSET_MASK := (off_eq addr).symm
        have hps : PAGE_SIZE = 16384 := PAGE_SIZE_eq
        have hchunkaddr : ∀ i, i < k → (addr + i) % ADDR_SPACE = addr + i := by
          intro i hi
          have h1 := (chunk_addr addr i (by simpa [ADDR_SPACE] using h32)
            (by omega)).1
          simp only [ADDR_SPACE]
          omega
        have hdroplen : (buffer.drop k).length = buffer.length - k := List.length_drop k buffer
        refine ⟨hInvF, ?_, ?_⟩
        · intro i hi
          by_cases hik : i < k
          · -- first chunk: survives the recursive writes
            have hxne : ∀ j < (buffer.drop k).length, ((addr + k) % ADDR_SPACE + j) % ADDR_SPACE ≠
                (addr + i) % ADDR_SPACE := by
              intro j hj
              rw [Nat.mod_add_mod, hchunkaddr i hik]
              simp only [ADDR_SPACE] at h32 hlenW ⊢
              rw [hdroplen] at hj
              intro hcon
              omega
            have := hframeF ((addr + i) % ADDR_SPACE) (Nat.mod_lt _ hWpos) hxne
            rw [this, hchunkaddr i hik]
            exact hcontent i hik
          · -- handled by the recursive call
            push_neg at hik
            have hj : i - k < (buffer.drop k).length := by
              rw [hdroplen]
              omega
            have h1 := hcontentF (i - k) hj
            have haddr : ((addr + k) % ADDR_SPACE + (i - k)) % ADDR_SPACE =
                (addr + i) % ADDR_SPACE := by
              rw [Nat.mod_add_mod]
              congr 1
              omega
            rw [haddr] at h1
            rw [h1, List.getD_eq_getElem?_getD, List.getElem?_drop,
              ← List.getD_eq_getElem?_getD]
            congr 1
            omega
        · intro x hx hxout
          have hstep1 : (Memory.writeLoop fuel _ ((addr + k) % ADDR_SPACE)
              (buffer.drop k)).2.byteAt x = _ := hframeF x hx (by
            intro j hj
            rw [Nat.mod_add_mod, Nat.add_assoc]
            rw [hdroplen] at hj
            exact hxout (k + j) (by omega))
          rw [hstep1]
          have hstep2 := hframe2 x hx (by
            intro i hik hcon
            exact hxout i (by omega) (by rw [hchunkaddr i hik, hcon]))
          rw [hstep2]
          exact hbyte1 x

/-- When the page of `a` is already mapped, `allocate_page` is a
no-op returning SUCCESS. -/
lemma allocate_page_of_mapped (s : Memory) (a : Nat) (h : s.pageMapped a) :
    s.allocate_page a = (MEM_SUCCESS, s) := by
  obtain ⟨h1, h2⟩ := h
  simp only [Memory.allocate_page, if_neg h1, Memory.allocate_page_in_table, if_pos h2]

/-- With capacity available, `allocate_page` succeeds. -/
lemma allocate_page_success_of_canAllocate (s : Memory) (a : Nat) (hInv : s.Inv)
    (hcap : s.canAllocate a) : (s.allocate_page a).1 = MEM_SUCCESS := by
  rcases hcap with hmap | ⟨htbl, hpages, havail⟩
  · rw [allocate_page_of_mapped s a hmap]
  · have hl2i : (a >>> L2_INDEX_SHIFT) &&& L2_INDEX_MASK < L2_TABLE_SIZE := by
      simp only [L2_INDEX_MASK, L2_TABLE_SIZE]
      exact mask_le_255 a L2_INDEX_SHIFT
    simp only [Memory.allocate_page]
    by_cases hA : s.l1_table ((a >>> L1_INDEX_SHIFT) &&& L1_INDEX_MASK) = UNMAPPED_L2_TABLE
    · have hcap2 : s.num_l2_tables < s.max_l2_tables := by
        rcases htbl with h | h
        · exact absurd hA h
        · exact h
      rw [if_pos hA, if_neg (by omega)]
      have hmod : s.num_l2_tables % 256 = s.num_l2_tables :=
        Nat.mod_eq_of_lt (by
          have := hInv.maxL2_le
          simp only [MAX_L2_TABLES] at this
          omega)
      simp only [Memory.allocate_page_in_table, setFn_self, hmod]
      have hclean := hInv.fresh_clean s.num_l2_tables
        ((a >>> L2_INDEX_SHIFT) &&& L2_INDEX_MASK) (le_refl _) hl2i
      rw [if_neg (by
        push_neg
        exact hclean)]
      rw [if_neg (by
        show ¬ (s.num_pages ≥ s.max_pages)
        omega)]
      rw [if_neg (by omega)]
    · rw [if_neg hA]
      simp only [Memory.allocate_page_in_table]
      by_cases hE : s.l2_tables (s.l1_table ((a >>> L1_INDEX_SHIFT) &&& L1_INDEX_MASK) *
          L2_TABLE_SIZE + ((a >>> L2_INDEX_SHIFT) &&& L2_INDEX_MASK)) ≠ UNMAPPED_PAGE
      · rw [if_pos hE]
      · rw [if_neg hE, if_neg (by
          show ¬ (s.num_pages ≥ s.max_pages)
          omega), if_neg (by omega)]

/-- A freshly constructed Memory over a fresh PageStore satisfies the
state invariant (the two hypotheses are the bounds `Memory::new` and
`PageStore::new` assert). -/
lemma Inv_new (total_pages max_pages max_l2 : Nat) (hcap : total_pages ≤ MAX_PAGES)
    (hml2 : max_l2 ≤ MAX_L2_TABLES) :
    (Memory.new (PageStore.new total_pages) max_pages max_l2).Inv := by
  constructor
  · exact hml2
  · exact Nat.zero_le _
  · exact Nat.zero_le _
  · exact hcap
  · intro i hi
    exact absurd rfl hi
  · intro i j hi _ _
    exact absurd rfl hi
  · intro t e _ _
    rfl
  · intro t e ht _ _
    exact absurd (show t < 0 from ht) (by omega)
  · intro t e u f ht _ _ _ _ _
    exact absurd (show t < 0 from ht) (by omega)
  · intro i hi
    exact hi
  · intro i j _ _ h
    exact h
  · intro i t e _ ht _
    exact absurd (show t < 0 from ht) (by omega)
  · intro i b _ _
    rfl

/-! ### Claim C2 — write-then-read identity -/

/-- C2: for every Memory in an invariant-satisfying state (any state a
constructed Memory can reach), every 32-bit start address — including
sequences that cross page boundaries and wrap past 0xFFFFFFFF — and
every byte sequence that fits the 32-bit address space, if
`write(addr, buffer)` returns SUCCESS then reading `buffer.length`
bytes back from `addr` yields exactly `buffer`. -/
theorem c2_write_then_read (s : Memory) (addr : Nat) (buffer : List Nat)
    (hInv : s.Inv) (h32 : addr < ADDR_SPACE) (hlen : buffer.length ≤ ADDR_SPACE)
    (hsucc : (s.write addr buffer).1 = MEM_SUCCESS) :
    (s.write addr buffer).2.read addr buffer.length = buffer := by
  obtain ⟨hInvF, hcontent, _⟩ :=
    Memory.writeLoop_spec buffer.length s addr buffer hInv h32 hlen (le_refl _) hsucc
  rw [Memory.read, Memory.readLoop_spec _ buffer.length addr buffer.length (le_refl _) h32]
  refine List.ext_getElem (by simp) ?_
  intro i h1 h2
  rw [List.getElem_map, List.getElem_range]
  have h3 := hcontent i (by simpa using h2)
  rw [List.getD_eq_getElem _ _ (by simpa using h2)] at h3
  exact h3

/-- Witness for C2: a two-byte write crossing the first page boundary
(addresses 16383 and 16384) reads back intact. -/
theorem c2_witness :
    ((Memory.new (PageStore.new 2) 2 1).write 16383 [170, 187]).2.read 16383 2 =
      [170, 187] := by
  have h := c2_write_then_read (Memory.new (PageStore.new 2) 2 1) 16383 [170, 187]
    (Inv_new 2 2 1 (by decide) (by decide)) (by decide) (by decide) (by decide)
  simpa using h

/-! ### Claim C6 — reads of unmapped memory -/

/-- Unmapped pages read as zero at the byte level. -/
lemma byteAt_of_not_mapped (s : Memory) (a : Nat) (h : ¬ s.pageMapped a) :
    s.byteAt a = 0 := by
  unfold Memory.pageMapped at h
  push_neg at h
  unfold Memory.byteAt
  by_cases h1 : s.l1_table ((a >>> L1_INDEX_SHIFT) &&& L1_INDEX_MASK) = UNMAPPED_L2_TABLE
  · rw [if_pos h1]
  · rw [if_neg h1, if_pos (h h1)]

/-- C6: reads from a fresh Memory return all zeros; `read` always
returns exactly the requested number of bytes (it cannot fail, and by
its type it cannot allocate — the source takes `&self`); and in any
state, a byte whose containing page is unmapped reads as 0. -/
theorem c6_read_unmapped_zero :
    (∀ total_pages max_pages max_l2 addr len, addr < ADDR_SPACE →
      (Memory.new (PageStore.new total_pages) max_pages max_l2).read addr len =
        List.replicate len 0) ∧
    (∀ (s : Memory) (addr len : Nat), addr < ADDR_SPACE → (s.read addr len).length = len) ∧
    (∀ (s : Memory) (addr len i : Nat), addr < ADDR_SPACE → i < len →
      ¬ s.pageMapped ((addr + i) % ADDR_SPACE) → (s.read addr len).getD i 0 = 0) := by
  refine ⟨?_, ?_, ?_⟩
  · intro total_pages max_pages max_l2 addr len h32
    rw [Memory.read, Memory.readLoop_spec _ len addr len (le_refl _) h32]
    rw [List.eq_replicate_iff]
    refine ⟨by simp, ?_⟩
    intro b hb
    rw [List.mem_map] at hb
    obtain ⟨i, _, rfl⟩ := hb
    rfl
  · intro s addr len h32
    rw [Memory.read, Memory.readLoop_spec _ len addr len (le_refl _) h32]
    simp
  · intro s addr len i h32 hi hun
    rw [Memory.read, Memory.readLoop_spec _ len addr len (le_refl _) h32]
    rw [List.getD_eq_getElem _ _ (by simpa using hi)]
    rw [List.getElem_map, List.getElem_range]
    exact byteAt_of_not_mapped _ _ hun

/-- Witness for C6 on a fresh Memory: three bytes from address 5. -/
theorem c6_witness :
    (Memory.new (PageStore.new 1) 1 1).read 5 3 = List.replicate 3 0 :=
  c6_read_unmapped_zero.1 1 1 1 5 3 (by decide)

/-! ### Claim C8 — allocate idempotence -/

/-- C8 (corrected): when the Memory has the capacity the allocation
needs (`canAllocate`), two successive `allocate_page(a)` calls return
SUCCESS both times and `num_pages` grows by at most 1 in total.
(`c8_counterexample` below refutes the unconditional claim.) -/
theorem c8_allocate_page_idempotent (s : Memory) (a : Nat) (hInv : s.Inv)
    (hcap : s.canAllocate a) :
    (s.allocate_page a).1 = MEM_SUCCESS ∧
    ((s.allocate_page a).2.allocate_page a).1 = MEM_SUCCESS ∧
    ((s.allocate_page a).2.allocate_page a).2.num_pages ≤ s.num_pages + 1 := by
  have h1 : (s.allocate_page a).1 = MEM_SUCCESS :=
    allocate_page_success_of_canAllocate s a hInv hcap
  obtain ⟨_, _, _, _, _, _, _, hup, hmap⟩ := allocate_page_spec s a hInv
  have h2 : (s.allocate_page a).2.allocate_page a = (MEM_SUCCESS, (s.allocate_page a).2) :=
    allocate_page_of_mapped _ a (hmap h1)
  refine ⟨h1, ?_, ?_⟩
  · rw [h2]
  · rw [h2]
    exact hup

/-- Witness for C8 on a fresh Memory with room for one page. -/
theorem c8_witness :
    ((Memory.new (PageStore.new 1) 1 1).allocate_page 0).1 = MEM_SUCCESS ∧
    (((Memory.new (PageStore.new 1) 1 1).allocate_page 0).2.allocate_page 0).1 =
      MEM_SUCCESS ∧
    (((Memory.new (PageStore.new 1) 1 1).allocate_page 0).2.allocate_page 0).2.num_pages ≤
      (Memory.new (PageStore.new 1) 1 1).num_pages + 1 :=
  c8_allocate_page_idempotent (Memory.new (PageStore.new 1) 1 1) 0
    (Inv_new 1 1 1 (by decide) (by decide))
    (Or.inr ⟨Or.inr (by decide), by decide, by decide⟩)

/-- Counterexample to C8 as frozen ("for every Memory M and every
address A … SUCCESS both times"): a Memory constructed with
`max_l2_tables = 0` answers NO_L2_TABLES (1), not SUCCESS, on both
calls. -/
theorem c8_counterexample :
    ((Memory.new (PageStore.new 1) 0 0).allocate_page 0).1 = MEM_ERR_NO_L2_TABLES ∧
    (((Memory.new (PageStore.new 1) 0 0).allocate_page 0).2.allocate_page 0).1 =
      MEM_ERR_NO_L2_TABLES := by decide

/-! ### Claim C9 — allocate_page failure frame -/

/-- C9: on any non-SUCCESS return, `allocate_page` leaves `num_pages`,
`allocated_indices`, every L2 entry and the whole PageStore (free list
and page bytes) unchanged; but when the L1 slot was unmapped and the
failure is PAGE_LIMIT or NO_PAGES_AVAILABLE, the freshly assigned L2
table stays assigned: `num_l2_tables` has grown by one and the L1
entry is no longer 0xFF.  On NO_L2_TABLES the state is entirely
unchanged.  (`max_l2_tables ≤ 255` is the bound `Memory::new`
asserts.) -/
theorem c9_allocate_page_failure_frame (s : Memory) (a : Nat)
    (hM : s.max_l2_tables ≤ MAX_L2_TABLES)
    (hfail : (s.allocate_page a).1 ≠ MEM_SUCCESS) :
    ((s.allocate_page a).2.num_pages = s.num_pages ∧
      (s.allocate_page a).2.allocated_indices = s.allocated_indices ∧
      (s.allocate_page a).2.l2_tables = s.l2_tables ∧
      (s.allocate_page a).2.store = s.store) ∧
    (s.l1_table ((a >>> L1_INDEX_SHIFT) &&& L1_INDEX_MASK) = UNMAPPED_L2_TABLE →
      (s.allocate_page a).1 ≠ MEM_ERR_NO_L2_TABLES →
      (s.allocate_page a).2.num_l2_tables = s.num_l2_tables + 1 ∧
        (s.allocate_page a).2.l1_table ((a >>> L1_INDEX_SHIFT) &&& L1_INDEX_MASK) ≠
          UNMAPPED_L2_TABLE) ∧
    ((s.allocate_page a).1 = MEM_ERR_NO_L2_TABLES → (s.allocate_page a).2 = s) := by
  simp only [Memory.allocate_page, Memory.allocate_page_in_table] at *
  split_ifs at * with h1 h2 h3 h4 h5 <;>
    simp_all [setFn_self, MEM_SUCCESS, MEM_ERR_NO_L2_TABLES, MEM_ERR_PAGE_LIMIT,
      MEM_ERR_NO_PAGES_AVAILABLE, UNMAPPED_L2_TABLE, MAX_L2_TABLES] <;>
    omega

/-- Witness for C9: a Memory with `max_l2_tables = 0` fails with
NO_L2_TABLES. -/
theorem c9_witness :
    (((Memory.new (PageStore.new 1) 0 0).allocate_page 0).2.num_pages =
        (Memory.new (PageStore.new 1) 0 0).num_pages ∧
      ((Memory.new (PageStore.new 1) 0 0).allocate_page 0).2.allocated_indices =
        (Memory.new (PageStore.new 1) 0 0).allocated_indices ∧
      ((Memory.new (PageStore.new 1) 0 0).allocate_page 0).2.l2_tables =
        (Memory.new (PageStore.new 1) 0 0).l2_tables ∧
      ((Memory.new (PageStore.new 1) 0 0).allocate_page 0).2.store =
        (Memory.new (PageStore.new 1) 0 0).store) ∧
    ((Memory.new (PageStore.new 1) 0 0).l1_table ((0 >>> L1_INDEX_SHIFT) &&& L1_INDEX_MASK) =
        UNMAPPED_L2_TABLE →
      ((Memory.new (PageStore.new 1) 0 0).allocate_page 0).1 ≠ MEM_ERR_NO_L2_TABLES →
      ((Memory.new (PageStore.new 1) 0 0).allocate_page 0).2.num_l2_tables =
          (Memory.new (PageStore.new 1) 0 0).num_l2_tables + 1 ∧
        ((Memory.new (PageStore.new 1) 0 0).allocate_page 0).2.l1_table
            ((0 >>> L1_INDEX_SHIFT) &&& L1_INDEX_MASK) ≠ UNMAPPED_L2_TABLE) ∧
    (((Memory.new (PageStore.new 1) 0 0).allocate_page 0).1 = MEM_ERR_NO_L2_TABLES →
      ((Memory.new (PageStore.new 1) 0 0).allocate_page 0).2 =
        Memory.new (PageStore.new 1) 0 0) :=
  c9_allocate_page_failure_frame (Memory.new (PageStore.new 1) 0 0) 0 (by decide)
    (by decide)

/-! ### Claim C3 — reset postcondition (code bug) -/

/-- C3 (code bug): `reset`'s `num_pages == 0` early return skips all
clearing.  A reachable state refuting the claim: construct
`PageStore::new(1)` and `Memory::new(store, 0, 1)`, call
`allocate_page(0)` — it assigns L2 table 0 to L1 slot 0 and then fails
with PAGE_LIMIT (2), leaving `num_pages = 0`, `num_l2_tables = 1`.
`reset()` then returns immediately: `num_l2_tables` stays 1 and
`l1_table[0]` stays 0 (not 0xFF), contradicting both the claim and
reset's own doc comment. -/
theorem c3_reset_skips_l2_cleanup :
    ((Memory.new (PageStore.new 1) 0 1).allocate_page 0).1 = MEM_ERR_PAGE_LIMIT ∧
    ((Memory.new (PageStore.new 1) 0 1).allocate_page 0).2.num_pages = 0 ∧
    (((Memory.new (PageStore.new 1) 0 1).allocate_page 0).2.reset).num_l2_tables = 1 ∧
    (((Memory.new (PageStore.new 1) 0 1).allocate_page 0).2.reset).l1_table 0 = 0 ∧
    (((Memory.new (PageStore.new 1) 0 1).allocate_page 0).2.reset).l1_table 0 ≠
      UNMAPPED_L2_TABLE := by decide

/-! ### Claim C7 — attachment-count invariant -/

/-- One protocol step preserves "counter = number attached". -/
lemma instSys_step_invariant (s : InstSys) (op : InstOp)
    (h : s.instance_count = s.attachedCount) :
    (s.step op).instance_count = (s.step op).attachedCount := by
  cases op with
  | newInstance =>
    show s.instance_count = (s.insts ++ [some false]).countP (fun o => o = some true)
    rw [List.countP_append]
    simp [InstSys.attachedCount] at h ⊢
    omega
  | attach i =>
    by_cases hi : i < s.insts.length
    · have hval : s.insts.getD i none = s.insts[i] := List.getD_eq_getElem _ _ hi
      have hcount := List.countP_set (fun o => o = some true) s.insts i (some true) hi
      rcases hb : s.insts[i] with _ | b
      · have hstep : s.step (.attach i) = s := by
          simp only [InstSys.step, hval, hb]
        rw [hstep]
        exact h
      · have hstep : s.step (.attach i) =
            { instance_count := (if b then s.instance_count - 1 else s.instance_count) + 1,
              insts := s.insts.set i (some true) } := by
          simp only [InstSys.step, hval, hb]
        rw [hstep]
        show (if b then s.instance_count - 1 else s.instance_count) + 1 =
          (s.insts.set i (some true)).countP (fun o => o = some true)
        rw [hcount, hb]
        cases b
        · simp only [InstSys.attachedCount] at h
          simp
          omega
        · have hpos : 0 < s.insts.countP (fun o => o = some true) := by
            rw [List.countP_pos_iff]
            exact ⟨some true, by
              rw [← hb]
              exact List.getElem_mem hi, by simp⟩
          simp only [InstSys.attachedCount] at h
          simp
          omega
    · have hval : s.insts.getD i none = none := by
        rw [List.getD_eq_getElem?_getD, List.getElem?_eq_none (by omega)]
        rfl
      have hstep : s.step (.attach i) = s := by
        simp only [InstSys.step, hval]
      rw [hstep]
      exact h
  | detach i =>
    by_cases hi : i < s.insts.length
    · have hval : s.insts.getD i none = s.insts[i] := List.getD_eq_getElem _ _ hi
      have hcount := List.countP_set (fun o => o = some true) s.insts i (some false) hi
      rcases hb : s.insts[i] with _ | b
      · have hstep : s.step (.detach i) = s := by
          simp only [InstSys.step, hval, hb]
        rw [hstep]
        exact h
      · cases b
        · have hstep : s.step (.detach i) = s := by
            simp only [InstSys.step, hval, hb]
          rw [hstep]
          exact h
        · have hpos : 0 < s.insts.countP (fun o => o = some true) := by
            rw [List.countP_pos_iff]
            exact ⟨some true, by
              rw [← hb]
              exact List.getElem_mem hi, by simp⟩
          have hstep : s.step (.detach i) =
              { instance_count := s.instance_count - 1,
                insts := s.insts.set i (some false) } := by
            simp only [InstSys.step, hval, hb]
          rw [hstep]
          show s.instance_count - 1 =
            (s.insts.set i (some false)).countP (fun o => o = some true)
          rw [hcount, hb]
          simp only [InstSys.attachedCount] at h
          simp
          omega
    · have hval : s.insts.getD i none = none := by
        rw [List.getD_eq_getElem?_getD, List.getElem?_eq_none (by omega)]
        rfl
      have hstep : s.step (.detach i) = s := by
        simp only [InstSys.step, hval]
      rw [hstep]
      exact h
  | drop i =>
    by_cases hi : i < s.insts.length
    · have hval : s.insts.getD i none = s.insts[i] := List.getD_eq_getElem _ _ hi
      have hcount := List.countP_set (fun o => o = some true) s.insts i none hi
      rcases hb : s.insts[i] with _ | b
      · have hstep : s.step (.drop i) = s := by
          simp only [InstSys.step, hval, hb]
        rw [hstep]
        exact h
      · cases b
        · have hstep : s.step (.drop i) = { s with insts := s.insts.set i none } := by
            simp only [InstSys.step, hval, hb]
          rw [hstep]
          show s.instance_count = (s.insts.set i none).countP (fun o => o = some true)
          rw [hcount, hb]
          simp only [InstSys.attachedCount] at h
          simp
          omega
        · have hpos : 0 < s.insts.countP (fun o => o = some true) := by
            rw [List.countP_pos_iff]
            exact ⟨some true, by
              rw [← hb]
              exact List.getElem_mem hi, by simp⟩
          have hstep : s.step (.drop i) =
              { instance_count := s.instance_count - 1, insts := s.insts.set i none } := by
            simp only [InstSys.step, hval, hb]
          rw [hstep]
          show s.instance_count - 1 = (s.insts.set i none).countP (fun o => o = some true)
          rw [hcount, hb]
          simp only [InstSys.attachedCount] at h
          simp
          omega
    · have hval : s.insts.getD i none = none := by
        rw [List.getD_eq_getElem?_getD, List.getElem?_eq_none (by omega)]
        rfl
      have hstep : s.step (.drop i) = s := by
        simp only [InstSys.step, hval]
      rw [hstep]
      exact h

/-- C7: after every finite sequence of attach/detach/drop operations by
any number of Instances against one Module, `instance_count` equals the
number of Instances currently attached. -/
theorem c7_attachment_count (ops : List InstOp) :
    (InstSys.run ops).instance_count = (InstSys.run ops).attachedCount := by
  suffices h : ∀ (l : List InstOp) (s : InstSys), s.instance_count = s.attachedCount →
      (l.foldl InstSys.step s).instance_count = (l.foldl InstSys.step s).attachedCount by
    exact h ops InstSys.init rfl
  intro l
  induction l with
  | nil => exact fun s h => h
  | cons op rest ih => exact fun s h => ih _ (instSys_step_invariant s op h)

/-! ### Claim C10 — compiler output is constant -/

/-- C10: `Compiler::compile` returns the 4 little-endian bytes of the
single ARM64 RET instruction 0xD65F03C0 for every input, and after any
successful `Module::set_code` the slice `Module::code()` equals those
4 bytes. -/
theorem c10_compile_constant :
    (∀ instructions : List Instruction,
      Compiler.compile instructions = [0xC0, 0x03, 0x5F, 0xD6]) ∧
    (∀ (m m' : Jigs.Module) (code : List Nat), m.set_code code = .ok m' →
      m'.code = [0xC0, 0x03, 0x5F, 0xD6]) := by
  constructor
  · intro instructions
    rfl
  · intro m m' code h
    simp only [Jigs.Module.set_code] at h
    by_cases h1 : m.instance_count ≠ 0
    · rw [if_pos h1] at h
      exact absurd h (by simp)
    · rw [if_neg h1] at h
      by_cases h2 : code.length * ARM64_CODE_SIZE_MULTIPLIER > m.code_buffer_size
      · rw [if_pos h2] at h
        exact absurd h (by simp)
      · rw [if_neg h2] at h
        injection h with hm
        rw [← hm]
        rfl

/-- Witness for C10: the Module seed scenario — `Module::new(4)` then
`set_code` of the NOP word `[0x13, 0, 0, 0]`. -/
theorem c10_witness :
    Jigs.Module.code
        (((Jigs.Module.new 4).set_code [0x13, 0, 0, 0]).toOption.getD (Jigs.Module.new 4)) =
      [0xC0, 0x03, 0x5F, 0xD6] :=
  c10_compile_constant.2 (Jigs.Module.new 4) _ [0x13, 0, 0, 0] (by rfl)
